import Mathlib

set_option maxHeartbeats 1000000

/-!
Shallow embedding of the transaction-signing core in src/script/sign.cpp.

Byte strings are modelled as lists of naturals.  The 160-bit hashes used as
key and script identifiers (CKeyID, CScriptID) are modelled by an injective
encoding of byte strings into naturals, standing for an ideal Hash160.
External collaborators that are not part of the source file (Solver,
EvalScript, VerifyScript, SignatureHash, ECDSA) are modelled from the
specification and marked as such in their doc comments; everything else is a
direct translation of the corresponding C++ function.
-/

/-- Injective encoding of a byte string into a natural number; the model of
    the ideal 160-bit hash behind CKeyID and CScriptID. -/
def encodeList : List Nat → Nat
  | [] => 0
  | a :: as => Nat.pair a (encodeList as) + 1

/-- Left inverse of encodeList. -/
def decodeList : Nat → List Nat
  | 0 => []
  | n + 1 => (Nat.unpair n).1 :: decodeList (Nat.unpair n).2
termination_by n => n
decreasing_by exact Nat.lt_succ_of_le (Nat.unpair_right_le n)

/-- Model of valtype, a vector of bytes. -/
abbrev Valtype := List Nat

/-- First-match lookup in an association list; the model of std::map find. -/
def alookup {α β : Type} [DecidableEq α] : List (α × β) → α → Option β
  | [], _ => none
  | (k, v) :: rest, a => if k = a then some v else alookup rest a

/-- Insert only when the key is absent; the model of std::map emplace. -/
def aemplace {α β : Type} [DecidableEq α] (m : List (α × β)) (k : α) (v : β) :
    List (α × β) :=
  if (alookup m k).isSome then m else m ++ [(k, v)]

/-- Left-biased union; the model of std::map insert over a range, where keys
    already present keep their value. -/
def aunion {α β : Type} [DecidableEq α] (m other : List (α × β)) : List (α × β) :=
  other.foldl (fun acc kv => aemplace acc kv.1 kv.2) m

/-- Scripts as this file sees them.  Locking scripts are carried through the
    template shapes the external Solver recognizes (from the spec's template
    wire-shape table); an unlocking script built by PushAll is the sequence
    of pushed stack items, since the minimal-push byte encoding is a
    bijection between item sequences and push-only byte scripts. -/
inductive CScript : Type where
  | pushOnly (items : List Valtype)
  | pkScript (pk : Valtype)
  | pkhScript (kid : Nat)
  | p2shScript (sid : Nat)
  | msigScript (m : Nat) (pks : List Valtype)
  | nullData
  | nonStd
deriving DecidableEq, Repr

/-- Serialization of a script to a byte string (used when a script travels as
    a stack item); injective by construction. -/
def encodeScript : CScript → Valtype
  | .pushOnly items => 0 :: items.map encodeList
  | .pkScript pk => 1 :: pk
  | .pkhScript kid => [2, kid]
  | .p2shScript sid => [3, sid]
  | .msigScript m pks => 4 :: m :: pks.map encodeList
  | .nullData => [5]
  | .nonStd => [6]

/-- Deserialization of a byte string back into a script. -/
def decodeScript : Valtype → CScript
  | 0 :: items => .pushOnly (items.map decodeList)
  | 1 :: pk => .pkScript pk
  | 2 :: kid :: [] => .pkhScript kid
  | 3 :: sid :: [] => .p2shScript sid
  | 4 :: m :: pks => .msigScript m (pks.map decodeList)
  | 5 :: [] => .nullData
  | _ => .nonStd

/-- CScript::empty. -/
def CScript.isEmpty : CScript → Bool
  | .pushOnly [] => true
  | _ => false

/-- A default-constructed, empty script. -/
def emptyScript : CScript := .pushOnly []

/-- CPubKey::GetID, the Hash160 of the serialized public key. -/
def keyIdOf (pk : Valtype) : Nat := encodeList pk

/-- CScriptID, the Hash160 of the serialized script. -/
def scriptIdOf (s : CScript) : Nat := encodeList (encodeScript s)

/-- txnouttype, the closed template tag enum. -/
inductive TxoutType : Type where
  | nonstandard
  | nulldata
  | pubkey
  | pubkeyhash
  | scripthash
  | multisig
deriving DecidableEq, Repr

/-- The template tag together with the extracted data pushes, as the external
    Solver returns them. -/
inductive SolverResult : Type where
  | nonstandard
  | nulldata
  | pubkey (pk : Valtype)
  | pubkeyhash (kid : Nat)
  | scripthash (sid : Nat)
  | multisig (m : Nat) (pks : List Valtype)
deriving DecidableEq, Repr

/-- Modelled from the spec: the external template recognizer Solver
    (script/standard.cpp is not part of the source file).  It recognizes the
    five template wire shapes of the spec's table and classifies everything
    else, including failures, as nonstandard. -/
def solver : CScript → SolverResult
  | .pkScript pk => .pubkey pk
  | .pkhScript kid => .pubkeyhash kid
  | .p2shScript sid => .scripthash sid
  | .msigScript m pks => .multisig m pks
  | .nullData => .nulldata
  | .pushOnly _ => .nonstandard
  | .nonStd => .nonstandard

/-- The tag of a Solver result, the value Solver stores in whichTypeRet. -/
def SolverResult.tag : SolverResult → TxoutType
  | .nonstandard => .nonstandard
  | .nulldata => .nulldata
  | .pubkey _ => .pubkey
  | .pubkeyhash _ => .pubkeyhash
  | .scripthash _ => .scripthash
  | .multisig _ _ => .multisig

/-- SigPair, a (public key, signature) pair. -/
abbrev SigPair := Valtype × Valtype

/-- SignatureData, the aggregation record of sign.h / sign.cpp. -/
structure SignatureData : Type where
  complete : Bool
  scriptSig : CScript
  redeem_script : CScript
  signatures : List (Nat × SigPair)
  misc_pubkeys : List (Nat × Valtype)
deriving DecidableEq, Repr

/-- A freshly constructed SignatureData. -/
def SignatureData.init : SignatureData :=
  { complete := false, scriptSig := emptyScript, redeem_script := emptyScript,
    signatures := [], misc_pubkeys := [] }

/-- SigningProvider: read-only lookups of keys, public keys and scripts, any
    of which may miss.  Secret keys are opaque naturals. -/
structure SigningProvider : Type where
  getKey? : Nat → Option Nat
  getPubKey? : Nat → Option Valtype
  getCScript? : Nat → Option CScript

/-- The signature checker interface: CheckSig over (signature, serialized
    public key, script code). -/
abbrev CheckerFn := Valtype → Valtype → CScript → Bool

/-- BaseSignatureCreator: produces one signature by key id and exposes its
    matching checker. -/
structure Creator : Type where
  createSig : SigningProvider → Nat → CScript → Option Valtype
  checker : CheckerFn

/-- Static helper GetCScript from sign.cpp: provider first, then the
    SignatureData redeem script when its hash matches. -/
def getCScript (provider : SigningProvider) (sigdata : SignatureData)
    (scriptid : Nat) : Option CScript :=
  match provider.getCScript? scriptid with
  | some s => some s
  | none =>
    if scriptIdOf sigdata.redeem_script = scriptid then some sigdata.redeem_script
    else none

/-- Static helper GetPubKey from sign.cpp: provider first (recording the hit
    in misc_pubkeys keyed by the returned key's own id), then the partial
    signatures, then misc_pubkeys. -/
def getPubKeyH (provider : SigningProvider) (sigdata : SignatureData)
    (address : Nat) : Option Valtype × SignatureData :=
  match provider.getPubKey? address with
  | some pk =>
    (some pk,
      { sigdata with misc_pubkeys := aemplace sigdata.misc_pubkeys (keyIdOf pk) pk })
  | none =>
    match alookup sigdata.signatures address with
    | some pr => (some pr.1, sigdata)
    | none =>
      match alookup sigdata.misc_pubkeys address with
      | some pk => (some pk, sigdata)
      | none => (none, sigdata)

/-- Static helper CreateSig from sign.cpp: reuse a signature already in the
    SignatureData, otherwise look up a best-effort public key (empty
    serialization when every lookup misses, like an uninitialized CPubKey),
    delegate to the creator, and on success record the fresh pair. -/
def createSigH (creator : Creator) (sigdata : SignatureData)
    (provider : SigningProvider) (keyid : Nat) (scriptcode : CScript) :
    Option Valtype × SignatureData :=
  match alookup sigdata.signatures keyid with
  | some pr => (some pr.2, sigdata)
  | none =>
    let g := getPubKeyH provider sigdata keyid
    match creator.createSig provider keyid scriptcode with
    | some sig =>
      (some sig,
        { g.2 with signatures := aemplace g.2.signatures keyid (g.1.getD [], sig) })
    | none => (none, g.2)

/-- The pubkey iteration of the TX_MULTISIG arm of SignStep: because of the
    short-circuit in
    `if (ret.size() < required + 1 && CreateSig(...))`,
    CreateSig runs only while the collected stack is still short. -/
def msigLoop (provider : SigningProvider) (creator : Creator)
    (scriptPubKey : CScript) (required : Nat) :
    List Valtype → List Valtype → SignatureData → List Valtype × SignatureData
  | [], ret, sigdata => (ret, sigdata)
  | pk :: pks, ret, sigdata =>
    if ret.length < required + 1 then
      match createSigH creator sigdata provider (keyIdOf pk) scriptPubKey with
      | (some sig, sigdata1) =>
        msigLoop provider creator scriptPubKey required pks (ret ++ [sig]) sigdata1
      | (none, sigdata1) =>
        msigLoop provider creator scriptPubKey required pks ret sigdata1
    else msigLoop provider creator scriptPubKey required pks ret sigdata

/-- The padding loop of the TX_MULTISIG arm, exactly as written in the
    source: `for (size_t i = 0; i + ret.size() < required + 1; ++i)
    ret.push_back(valtype());`.  Note that both i and ret.size() grow on
    every iteration. -/
def padLoop (required : Nat) (i : Nat) (ret : List Valtype) : List Valtype :=
  if i + ret.length < required + 1 then padLoop required (i + 1) (ret ++ [[]])
  else ret
termination_by required + 1 - (i + ret.length)
decreasing_by simp; omega

/-- The result of SignStep: the returned flag, the produced stack ret, the
    solved template tag whichTypeRet, and the updated SignatureData. -/
structure StepOut : Type where
  ok : Bool
  ret : List Valtype
  whichType : TxoutType
  sigdata : SignatureData
deriving DecidableEq, Repr

/-- SignStep: solve the locking script and produce the satisfying stack
    items for one template level. -/
def signStep (provider : SigningProvider) (creator : Creator)
    (scriptPubKey : CScript) (sigdata : SignatureData) : StepOut :=
  match solver scriptPubKey with
  | .nonstandard => ⟨false, [], .nonstandard, sigdata⟩
  | .nulldata => ⟨false, [], .nulldata, sigdata⟩
  | .pubkey pk =>
    match createSigH creator sigdata provider (keyIdOf pk) scriptPubKey with
    | (some sig, sigdata1) => ⟨true, [sig], .pubkey, sigdata1⟩
    | (none, sigdata1) => ⟨false, [], .pubkey, sigdata1⟩
  | .pubkeyhash kid =>
    match createSigH creator sigdata provider kid scriptPubKey with
    | (some sig, sigdata1) =>
      ⟨true, [sig, (provider.getPubKey? kid).getD []], .pubkeyhash, sigdata1⟩
    | (none, sigdata1) => ⟨false, [], .pubkeyhash, sigdata1⟩
  | .scripthash sid =>
    match getCScript provider sigdata sid with
    | some scriptRet => ⟨true, [encodeScript scriptRet], .scripthash, sigdata⟩
    | none => ⟨false, [], .scripthash, sigdata⟩
  | .multisig m pks =>
    let lp := msigLoop provider creator scriptPubKey m pks [[]] sigdata
    ⟨lp.1.length == m + 1, padLoop m 0 lp.1, .multisig, lp.2⟩

/-- PushAll: assemble the stack items into a push-only script.  In this model
    a push-only script carries its item list directly; the byte-level
    minimal-push encoding is a bijection on the items. -/
def pushAll (values : List Valtype) : CScript := .pushOnly values

/-- Modelled from the spec: the greedy in-order signature matching performed
    by OP_CHECKMULTISIG inside the external script interpreter, instrumented
    with every (pubkey, signature) pair the checker accepted, in the order
    the checks succeeded. -/
def msigMatchExtract (checker : CheckerFn) (scriptCode : CScript) :
    List Valtype → List Valtype → Bool × List (Valtype × Valtype)
  | [], _ => (true, [])
  | _ :: _, [] => (false, [])
  | s :: ss, p :: pp =>
    if checker s p scriptCode then
      let r := msigMatchExtract checker scriptCode ss pp
      (r.1, (p, s) :: r.2)
    else msigMatchExtract checker scriptCode (s :: ss) pp
termination_by _ pks => pks.length
decreasing_by
all_goals simp

/-- Modelled from the spec: evaluation of one standard locking script
    against a fully pushed stack (the non-P2SH part of the external
    VerifyScript under the standard flags, including the clean-stack rule
    and the null-dummy rule), instrumented with the (pubkey, signature)
    pairs the checker accepted. -/
def verifyBaseExtract (checker : CheckerFn) (stack : List Valtype)
    (scriptPubKey : CScript) : Bool × List (Valtype × Valtype) :=
  match solver scriptPubKey with
  | .pubkey pk =>
    match stack with
    | [sig] => if checker sig pk scriptPubKey then (true, [(pk, sig)]) else (false, [])
    | _ => (false, [])
  | .pubkeyhash kid =>
    match stack with
    | [sig, pkb] =>
      if keyIdOf pkb = kid then
        if checker sig pkb scriptPubKey then (true, [(pkb, sig)]) else (false, [])
      else (false, [])
    | _ => (false, [])
  | .scripthash sid =>
    match stack with
    | [x] => (decide (encodeList x = sid), [])
    | _ => (false, [])
  | .multisig m pks =>
    match stack with
    | dummy :: sigs =>
      if dummy = [] ∧ sigs.length = m then msigMatchExtract checker scriptPubKey sigs pks
      else (false, [])
    | [] => (false, [])
  | .nulldata => (false, [])
  | .nonstandard => (false, [])

/-- Modelled from the spec: the external VerifyScript under the standard
    flag set (push-only scriptSig, one level of P2SH indirection),
    instrumented with the pairs the checker accepted, as the
    SignatureExtractorChecker wrapper would record them. -/
def verifyScriptExtract (checker : CheckerFn) (scriptSig scriptPubKey : CScript) :
    Bool × List (Valtype × Valtype) :=
  match scriptSig with
  | .pushOnly stack =>
    match solver scriptPubKey with
    | .scripthash sid =>
      match stack.getLast? with
      | some redeemBytes =>
        if encodeList redeemBytes = sid then
          verifyBaseExtract checker stack.dropLast (decodeScript redeemBytes)
        else (false, [])
      | none => (false, [])
    | _ => verifyBaseExtract checker stack scriptPubKey
  | _ => (false, [])

/-- Modelled from the spec: plain VerifyScript, the verdict of the
    instrumented verifier. -/
def verifyScript (checker : CheckerFn) (scriptSig scriptPubKey : CScript) : Bool :=
  (verifyScriptExtract checker scriptSig scriptPubKey).1

/-- ProduceSignature: early return on complete data, one SignStep, the P2SH
    unwrap with the no-nested-P2SH requirement, PushAll assembly, and the
    final verification that decides complete. -/
def produceSignature (provider : SigningProvider) (creator : Creator)
    (fromPubKey : CScript) (sigdata : SignatureData) : Bool × SignatureData :=
  if sigdata.complete then (true, sigdata)
  else
    let o := signStep provider creator fromPubKey sigdata
    if o.ok = true ∧ o.whichType = TxoutType.scripthash then
      let subscript := decodeScript (o.ret.headD [])
      let sd1 := { o.sigdata with redeem_script := subscript }
      let o2 := signStep provider creator subscript sd1
      let solved := o2.ok && ! decide (o2.whichType = TxoutType.scripthash)
      let scriptSig := pushAll (o2.ret ++ [encodeScript subscript])
      let complete := solved && verifyScript creator.checker scriptSig fromPubKey
      (complete, { o2.sigdata with scriptSig := scriptSig, complete := complete })
    else
      let scriptSig := pushAll o.ret
      let complete := o.ok && verifyScript creator.checker scriptSig fromPubKey
      (complete, { o.sigdata with scriptSig := scriptSig, complete := complete })

/-- Modelled from the spec: EvalScript in push-only mode recovers the pushed
    stack of a scriptSig built by PushAll; a non-push script leaves no stack
    in this model. -/
def evalPushOnly : CScript → List Valtype
  | .pushOnly items => items
  | _ => []

/-- The inner loop of the multisig matching walk of DataFromTransaction: try
    the pubkeys from the cursor onward; a hit is an entry already recorded
    for the pubkey's id, or a checker success (which records the pair, as
    the extractor checker does); on a hit report the advanced cursor. -/
def tryKeys (checker : CheckerFn) (nextScript : CScript) (sig : Valtype) :
    List Valtype → Nat → SignatureData → Option Nat × SignatureData
  | [], _, data => (none, data)
  | pk :: rest, i, data =>
    if (alookup data.signatures (keyIdOf pk)).isSome then (some (i + 1), data)
    else if checker sig pk nextScript then
      (some (i + 1),
        { data with signatures := aemplace data.signatures (keyIdOf pk) (pk, sig) })
    else tryKeys checker nextScript sig rest (i + 1) data

/-- The outer loop of the multisig matching walk of DataFromTransaction,
    advancing the last_success_key cursor monotonically. -/
def msigWalk (checker : CheckerFn) (nextScript : CScript) (pks : List Valtype) :
    List Valtype → Nat → SignatureData → SignatureData
  | [], _, data => data
  | sig :: rest, cursor, data =>
    match tryKeys checker nextScript sig (pks.drop cursor) cursor data with
    | (some c1, data1) => msigWalk checker nextScript pks rest c1 data1
    | (none, data1) => msigWalk checker nextScript pks rest cursor data1

/-- Record a list of (pubkey, signature) pairs into a signatures map, keyed
    by each pubkey's id, first pair winning, exactly as repeated emplace
    calls of the extractor checker would. -/
def emplacePairs (m : List (Nat × SigPair)) (pairs : List (Valtype × Valtype)) :
    List (Nat × SigPair) :=
  pairs.foldl (fun acc pr => aemplace acc (keyIdOf pr.1) pr) m

/-- DataFromTransaction: the transaction, the input index and the spent
    output are folded into the input's scriptSig, the output's locking
    script and the transaction-bound checker the function builds. -/
def dataFromTransaction (checker : CheckerFn) (scriptSig scriptPubKey : CScript) :
    SignatureData :=
  let data0 : SignatureData := { SignatureData.init with scriptSig := scriptSig }
  let stack := evalPushOnly scriptSig
  let vr := verifyScriptExtract checker scriptSig scriptPubKey
  let data1 := { data0 with signatures := emplacePairs data0.signatures vr.2 }
  if vr.1 then { data1 with complete := true }
  else
    let st0 := solver scriptPubKey
    if st0.tag = TxoutType.scripthash ∧ stack ≠ [] ∧ stack.getLastD [] ≠ [] then
      let redeem := decodeScript (stack.getLastD [])
      let data2 := { data1 with redeem_script := redeem }
      let stack1 := stack.dropLast
      match solver redeem with
      | .multisig _ pks =>
        if stack1 ≠ [] then msigWalk checker redeem pks stack1 0 data2 else data2
      | _ => data2
    else
      match st0 with
      | .multisig _ pks =>
        if stack ≠ [] then msigWalk checker scriptPubKey pks stack 0 data1 else data1
      | _ => data1

/-- SignatureData::MergeSignatureData. -/
def SignatureData.mergeSignatureData (self other : SignatureData) : SignatureData :=
  if self.complete then self
  else if other.complete then other
  else
    { self with
      redeem_script :=
        if self.redeem_script.isEmpty ∧ ¬ other.redeem_script.isEmpty then
          other.redeem_script
        else self.redeem_script,
      signatures := aunion self.signatures other.signatures }

/-- CTxOut, reduced to the two fields the signing core reads. -/
structure CTxOut : Type where
  nValue : Nat
  scriptPubKey : CScript
deriving DecidableEq, Repr

/-- PSBTInput.  The field part_sigs models partial_sigs; hd_keypaths maps a
    serialized public key to an opaque origin datum. -/
structure PSBTInput : Type where
  utxo : Option CTxOut
  part_sigs : List (Nat × SigPair)
  hd_keypaths : List (Valtype × Nat)
  redeem_script : CScript
  final_script_sig : CScript
  unknown : List (Valtype × Valtype)
deriving DecidableEq, Repr

/-- PSBTInput::Merge. -/
def PSBTInput.merge (self input : PSBTInput) : PSBTInput :=
  { utxo := if self.utxo.isNone ∧ input.utxo.isSome then input.utxo else self.utxo,
    part_sigs := aunion self.part_sigs input.part_sigs,
    hd_keypaths := aunion self.hd_keypaths input.hd_keypaths,
    unknown := aunion self.unknown input.unknown,
    redeem_script :=
      if self.redeem_script.isEmpty ∧ ¬ input.redeem_script.isEmpty then
        input.redeem_script
      else self.redeem_script,
    final_script_sig :=
      if self.final_script_sig.isEmpty ∧ ¬ input.final_script_sig.isEmpty then
        input.final_script_sig
      else self.final_script_sig }

/-- Modelled from the spec: the serialized public key of an opaque secret
    key; injective and never empty. -/
def pubkeyOf (sk : Nat) : Valtype := [2, sk]

/-- Modelled from the spec: recover the secret key of a well-formed
    serialized public key; anything else, in particular the empty
    serialization of an uninitialized CPubKey, is invalid. -/
def skOf? : Valtype → Option Nat
  | [2, k] => some k
  | _ => none

/-- Modelled from the spec: the sighash digest, committing to the
    transaction context and the script code. -/
def sigHashOf (txctx : Nat) (scriptCode : CScript) : Nat :=
  Nat.pair txctx (encodeList (encodeScript scriptCode))

/-- Modelled from the spec: the deterministic DER-encoded ECDSA signature of
    a digest under a secret key; injective in the pair. -/
def signECDSA (sk digest : Nat) : Valtype := [48, sk, digest]

/-- The transaction-bound context of a MutableTransactionSignatureCreator:
    the (tx, nIn, amount) triple and the raw sighash-type byte. -/
structure TxCtx : Type where
  txctx : Nat
  hashByte : Nat
deriving DecidableEq, Repr

/-- MutableTransactionSignatureCreator::CreateSig: look up the secret key,
    sign the sighash digest, append the raw sighash-type byte. -/
def realCreateSig (ctx : TxCtx) (provider : SigningProvider) (keyid : Nat)
    (scriptCode : CScript) : Option Valtype :=
  match provider.getKey? keyid with
  | some sk => some (signECDSA sk (sigHashOf ctx.txctx scriptCode) ++ [ctx.hashByte])
  | none => none

/-- Modelled from the spec: the transaction-bound signature checker; accepts
    exactly the signature realCreateSig would produce for the serialized
    public key, and rejects anything that is not a well-formed public key. -/
def realCheckSig (ctx : TxCtx) (sig pk : Valtype) (scriptCode : CScript) : Bool :=
  match skOf? pk with
  | some sk => decide (sig = signECDSA sk (sigHashOf ctx.txctx scriptCode) ++ [ctx.hashByte])
  | none => false

/-- A MutableTransactionSignatureCreator bound to a transaction context. -/
def realCreator (ctx : TxCtx) : Creator :=
  { createSig := realCreateSig ctx, checker := realCheckSig ctx }

/-- SIGHASH_ALL. -/
def SIGHASH_ALL : Nat := 0x01

/-- SIGHASH_FORKID. -/
def SIGHASH_FORKID : Nat := 0x40

/-- DummySignatureCreator::CreateSig, translated byte by byte: a 72-byte
    zero buffer with the DER skeleton bytes assigned at the source's
    indices. -/
def dummyCreateSig (provider : SigningProvider) (keyid : Nat)
    (scriptCode : CScript) : Option Valtype :=
  let v := List.replicate 72 0
  let v := v.set 0 0x30
  let v := v.set 1 69
  let v := v.set 2 0x02
  let v := v.set 3 33
  let v := v.set 4 0x01
  let v := v.set (4 + 33) 0x02
  let v := v.set (5 + 33) 32
  let v := v.set (6 + 33) 0x01
  let v := v.set (6 + 33 + 32) (SIGHASH_ALL ||| SIGHASH_FORKID)
  some v

/-- DummySignatureChecker: accepts every signature. -/
def dummyChecker : CheckerFn := fun _ _ _ => true

/-- DUMMY_SIGNATURE_CREATOR. -/
def DUMMY_SIGNATURE_CREATOR : Creator :=
  { createSig := dummyCreateSig, checker := dummyChecker }

/-- Overwrite the scriptSig and complete fields, leaving the rest; used to
    state which SignatureData fields SignStep never reads. -/
def withSC (sd : SignatureData) (s : CScript) (b : Bool) : SignatureData :=
  { sd with scriptSig := s, complete := b }

/-- Every signature entry of a is present, unchanged, in b. -/
def SigPres (a b : SignatureData) : Prop :=
  ∀ k v, alookup a.signatures k = some v → alookup b.signatures k = some v

/-- Every misc pubkey key of a is still a key of b. -/
def MiscPres (a b : SignatureData) : Prop :=
  ∀ k, (alookup a.misc_pubkeys k).isSome = true →
    (alookup b.misc_pubkeys k).isSome = true

/-- A key id that is absent from a and for which the creator cannot sign the
    given script stays absent in b. -/
def AbsPres (provider : SigningProvider) (creator : Creator) (scriptcode : CScript)
    (a b : SignatureData) : Prop :=
  ∀ k, alookup a.signatures k = none →
    creator.createSig provider k scriptcode = none →
    alookup b.signatures k = none

/-- DUMMY_SIGNING_PROVIDER: the base SigningProvider, whose lookups all
    miss. -/
def DUMMY_SIGNING_PROVIDER : SigningProvider :=
  ⟨fun _ => none, fun _ => none, fun _ => none⟩

/-- A creator whose signing always fails; a concrete instance for
    counterexamples (a real creator over a provider with no keys behaves
    this way). -/
def creatorRejectAll : Creator :=
  { createSig := fun _ _ _ => none, checker := fun _ _ _ => true }

/-- A creator that signs every key id with a recognizable signature; a
    concrete instance for counterexamples. -/
def creatorAcceptAll : Creator :=
  { createSig := fun _ kid _ => some [99, kid], checker := fun _ _ _ => true }

/-- A concrete non-finalized PSBT input holding one partial signature for
    key id 1. -/
def psbtA : PSBTInput :=
  { utxo := none, part_sigs := [(1, ([2, 1], [5]))], hd_keypaths := [],
    redeem_script := emptyScript, final_script_sig := emptyScript, unknown := [] }

/-- A concrete non-finalized PSBT input holding a different partial
    signature for the same key id 1. -/
def psbtB : PSBTInput :=
  { utxo := none, part_sigs := [(1, ([2, 1], [6]))], hd_keypaths := [],
    redeem_script := emptyScript, final_script_sig := emptyScript, unknown := [] }

/-- A concrete transaction context. -/
def ctx0 : TxCtx := ⟨0, 65⟩

/-- A concrete provider holding exactly the secret key of the public key
    [2, 7], indexed by that key's id. -/
def providerC3 : SigningProvider :=
  ⟨fun k => if k = keyIdOf [2, 7] then some 7 else none,
    fun _ => none, fun _ => none⟩

/-! Basic lemmas about the encodings and the association-list maps. -/

theorem decodeList_encodeList (l : List Nat) : decodeList (encodeList l) = l := by
  induction l with
  | nil => simp [encodeList, decodeList]
  | cons a as ih => simp [encodeList, decodeList, Nat.unpair_pair, ih]

theorem map_decode_encode (l : List Valtype) :
    List.map (decodeList ∘ encodeList) l = l := by
  induction l with
  | nil => rfl
  | cons a as ih => simp [Function.comp, decodeList_encodeList, ih]

theorem decodeScript_encodeScript (s : CScript) :
    decodeScript (encodeScript s) = s := by
  cases s <;> simp [encodeScript, decodeScript, map_decode_encode]

theorem isEmpty_eq_emptyScript (s : CScript) (h : s.isEmpty = true) :
    s = emptyScript := by
  cases s with
  | pushOnly items =>
    cases items with
    | nil => rfl
    | cons a as => simp [CScript.isEmpty] at h
  | pkScript pk => simp [CScript.isEmpty] at h
  | pkhScript kid => simp [CScript.isEmpty] at h
  | p2shScript sid => simp [CScript.isEmpty] at h
  | msigScript m pks => simp [CScript.isEmpty] at h
  | nullData => simp [CScript.isEmpty] at h
  | nonStd => simp [CScript.isEmpty] at h

theorem alookup_append {α β : Type} [DecidableEq α] (m m' : List (α × β)) (k : α) :
    alookup (m ++ m') k =
      match alookup m k with
      | some v => some v
      | none => alookup m' k := by
  induction m with
  | nil => simp [alookup]
  | cons kv rest ih =>
    obtain ⟨k0, v0⟩ := kv
    by_cases h : k0 = k <;> simp [alookup, h, ih]

theorem alookup_aemplace_pres {α β : Type} [DecidableEq α]
    (m : List (α × β)) (k k' : α) (v w : β) (h : alookup m k' = some w) :
    alookup (aemplace m k v) k' = some w := by
  unfold aemplace
  split
  · exact h
  · rw [alookup_append, h]

theorem alookup_aemplace_ne {α β : Type} [DecidableEq α]
    (m : List (α × β)) (k k' : α) (v : β) (h : k' ≠ k) :
    alookup (aemplace m k v) k' = alookup m k' := by
  unfold aemplace
  split
  · rfl
  · rw [alookup_append]
    cases hm : alookup m k' with
    | some w => rfl
    | none => simp [alookup, Ne.symm h]

theorem alookup_aemplace_self_of_none {α β : Type} [DecidableEq α]
    (m : List (α × β)) (k : α) (v : β) (h : alookup m k = none) :
    alookup (aemplace m k v) k = some v := by
  unfold aemplace
  rw [h]
  simp [alookup_append, h, alookup]

theorem isSome_alookup_aemplace {α β : Type} [DecidableEq α]
    (m : List (α × β)) (k : α) (v : β) :
    (alookup (aemplace m k v) k).isSome = true := by
  cases hm : alookup m k with
  | some w => rw [alookup_aemplace_pres m k k v w hm]; rfl
  | none => rw [alookup_aemplace_self_of_none m k v hm]; rfl

theorem aemplace_of_isSome {α β : Type} [DecidableEq α]
    (m : List (α × β)) (k : α) (v : β) (h : (alookup m k).isSome = true) :
    aemplace m k v = m := by
  unfold aemplace
  simp [h]

theorem isSome_alookup_aemplace_pres {α β : Type} [DecidableEq α]
    (m : List (α × β)) (k k' : α) (v : β)
    (h : (alookup m k').isSome = true) :
    (alookup (aemplace m k v) k').isSome = true := by
  cases hm : alookup m k' with
  | some w => rw [alookup_aemplace_pres m k k' v w hm]; rfl
  | none => rw [hm] at h; simp at h

theorem aunion_cons {α β : Type} [DecidableEq α]
    (m : List (α × β)) (kv : α × β) (rest : List (α × β)) :
    aunion m (kv :: rest) = aunion (aemplace m kv.1 kv.2) rest := by
  simp [aunion]

theorem alookup_aunion_pres {α β : Type} [DecidableEq α]
    (m other : List (α × β)) (k : α) (v : β) (h : alookup m k = some v) :
    alookup (aunion m other) k = some v := by
  induction other generalizing m with
  | nil => exact h
  | cons kv rest ih =>
    rw [aunion_cons]
    exact ih _ (alookup_aemplace_pres _ _ _ _ _ h)

theorem alookup_aunion_none {α β : Type} [DecidableEq α]
    (m other : List (α × β)) (k : α) (h : alookup m k = none) :
    alookup (aunion m other) k = alookup other k := by
  induction other generalizing m with
  | nil => simpa [aunion, alookup]
  | cons kv rest ih =>
    obtain ⟨k0, v0⟩ := kv
    rw [aunion_cons]
    by_cases hk : k = k0
    · subst hk
      have h1 : alookup (aemplace m k v0) k = some v0 :=
        alookup_aemplace_self_of_none m k v0 h
      rw [alookup_aunion_pres _ _ _ _ h1]
      simp [alookup]
    · have h1 : alookup (aemplace m k0 v0) k = none := by
        rw [alookup_aemplace_ne m k0 k v0 hk]; exact h
      rw [ih _ h1]
      simp [alookup, Ne.symm hk]

theorem alookup_aunion {α β : Type} [DecidableEq α]
    (m other : List (α × β)) (k : α) :
    alookup (aunion m other) k =
      match alookup m k with
      | some v => some v
      | none => alookup other k := by
  cases h : alookup m k with
  | some v => rw [alookup_aunion_pres _ _ _ _ h]
  | none => rw [alookup_aunion_none _ _ _ h]

/-! Lemmas about the multisig collection and padding loops. -/

theorem padLoop_spec_aux (n : Nat) : ∀ required i (ret : List Valtype),
    required + 1 - (i + ret.length) = n →
    padLoop required i ret = ret ++ List.replicate ((n + 1) / 2) [] := by
  induction n using Nat.strong_induction_on with
  | _ n ih =>
    intro required i ret hn
    rw [padLoop]
    by_cases h : i + ret.length < required + 1
    · simp only [if_pos h]
      have h2 : required + 1 - (i + 1 + (ret ++ [[]]).length) = n - 2 := by
        simp only [List.length_append, List.length_cons, List.length_nil]
        omega
      have hlt : n - 2 < n := by omega
      rw [ih (n - 2) hlt required (i + 1) (ret ++ [[]]) h2]
      have hdiv : (n + 1) / 2 = (n - 2 + 1) / 2 + 1 := by omega
      rw [hdiv, List.append_assoc]
      congr 1
    · simp only [if_neg h]
      have hz : n = 0 := by omega
      simp [hz]

theorem padLoop_spec (required i : Nat) (ret : List Valtype) :
    padLoop required i ret =
      ret ++ List.replicate ((required + 1 - (i + ret.length) + 1) / 2) [] :=
  padLoop_spec_aux (required + 1 - (i + ret.length)) required i ret rfl

theorem msigLoop_extend (provider : SigningProvider) (creator : Creator)
    (S : CScript) (required : Nat) :
    ∀ (pks ret : List Valtype) (sd : SignatureData),
      ret.length ≤ required + 1 →
      ∃ extra, (msigLoop provider creator S required pks ret sd).1 = ret ++ extra ∧
        ret.length + extra.length ≤ required + 1 := by
  intro pks
  induction pks with
  | nil =>
    intro ret sd hle
    exact ⟨[], by simp [msigLoop], by simpa⟩
  | cons pk rest ih =>
    intro ret sd hle
    rw [msigLoop]
    by_cases h : ret.length < required + 1
    · simp only [if_pos h]
      cases hc : createSigH creator sd provider (keyIdOf pk) S with
      | mk r sd1 =>
        cases r with
        | some sig =>
          obtain ⟨extra, he, hlen⟩ := ih (ret ++ [sig]) sd1 (by simp; omega)
          refine ⟨[sig] ++ extra, ?_, ?_⟩
          · simp only [he, List.append_assoc]
          · simp at hlen ⊢; omega
        | none =>
          obtain ⟨extra, he, hlen⟩ := ih ret sd1 hle
          exact ⟨extra, he, hlen⟩
    · simp only [if_neg h]
      obtain ⟨extra, he, hlen⟩ := ih ret sd hle
      exact ⟨extra, he, hlen⟩

/-- C1 (amended): for an m-of-n MULTISIG locking script, SignStep returns a
stack consisting of a leading empty item, the c collected signatures
(c is at most m), and ((m - c) + 1) / 2 empty padding items, so the padding
fills only about half of any shortfall and the stack has length m + 1
exactly when c is m or m - 1; SignStep returns true iff exactly m real
signatures were produced. -/
theorem claim_C1_multisig_stack (provider : SigningProvider) (creator : Creator)
    (m : Nat) (pks : List Valtype) (sd : SignatureData) :
    ∃ realSigs : List Valtype,
      (msigLoop provider creator (CScript.msigScript m pks) m pks [[]] sd).1 =
        [] :: realSigs ∧
      realSigs.length ≤ m ∧
      (signStep provider creator (CScript.msigScript m pks) sd).ret =
        ([] :: realSigs) ++ List.replicate ((m - realSigs.length + 1) / 2) [] ∧
      (signStep provider creator (CScript.msigScript m pks) sd).ret.head? =
        some [] ∧
      ((signStep provider creator (CScript.msigScript m pks) sd).ok = true ↔
        realSigs.length = m) := by
  obtain ⟨extra, he, hlen⟩ :=
    msigLoop_extend provider creator (CScript.msigScript m pks) m pks [[]] sd
      (by simp)
  have hstep : signStep provider creator (CScript.msigScript m pks) sd =
      ⟨(msigLoop provider creator (CScript.msigScript m pks) m pks [[]] sd).1.length
          == m + 1,
        padLoop m 0
          (msigLoop provider creator (CScript.msigScript m pks) m pks [[]] sd).1,
        .multisig,
        (msigLoop provider creator (CScript.msigScript m pks) m pks [[]] sd).2⟩ := by
    simp [signStep, solver]
  refine ⟨extra, by simpa using he, ?_, ?_, ?_, ?_⟩
  · simp at hlen; omega
  · rw [hstep]
    simp only
    rw [he, padLoop_spec]
    simp
  · rw [hstep]
    simp only
    rw [he, padLoop_spec]
    simp
  · rw [hstep]
    simp only [he]
    simp

/-- C1 (counterexample): a 2-of-3 MULTISIG with no producible signature
yields a stack of length 2, not m + 1 = 3: the padding loop advances both
its counter and the stack length, so it fills only half of the shortfall. -/
theorem claim_C1_counterexample :
    ¬ ((signStep DUMMY_SIGNING_PROVIDER creatorRejectAll
        (CScript.msigScript 2 [[2, 1], [2, 2], [2, 3]])
        SignatureData.init).ret.length = 2 + 1) := by
  have h1 : msigLoop DUMMY_SIGNING_PROVIDER creatorRejectAll
      (CScript.msigScript 2 [[2, 1], [2, 2], [2, 3]]) 2
      [[2, 1], [2, 2], [2, 3]] [[]] SignatureData.init =
      ([[]], SignatureData.init) := by decide
  simp [signStep, solver, h1, padLoop_spec]

/-- C2 (amended): in the MULTISIG arm of SignStep, a signing attempt is made
for a pubkey only while fewer than m signatures have been collected; as soon
as the collected stack holds m signatures, the remaining pubkeys are skipped
entirely: no CreateSig call is made for them and the signature data is left
untouched. -/
theorem claim_C2_multisig_skip (provider : SigningProvider) (creator : Creator)
    (S : CScript) (required : Nat) (pks : List Valtype) (ret : List Valtype)
    (sd : SignatureData) (h : ret.length = required + 1) :
    msigLoop provider creator S required pks ret sd = (ret, sd) := by
  induction pks with
  | nil => rw [msigLoop]
  | cons pk rest ih =>
    rw [msigLoop]
    rw [if_neg (by omega)]
    exact ih

theorem claim_C2_multisig_skip_witness :
    msigLoop DUMMY_SIGNING_PROVIDER creatorAcceptAll
      (CScript.msigScript 0 [[2, 5]]) 0 [[2, 5]] [[]] SignatureData.init =
      ([[]], SignatureData.init) :=
  claim_C2_multisig_skip DUMMY_SIGNING_PROVIDER creatorAcceptAll
    (CScript.msigScript 0 [[2, 5]]) 0 [[2, 5]] [[]] SignatureData.init rfl

/-- C2 (counterexample): in a 1-of-2 MULTISIG with a creator that signs every
key id, SignStep succeeds, yet after the first signature is collected the
second pubkey gets no CreateSig attempt: its key id is absent from the
signature map, although a CreateSig call for it would succeed (and would
record it). -/
theorem claim_C2_counterexample :
    (signStep DUMMY_SIGNING_PROVIDER creatorAcceptAll
        (CScript.msigScript 1 [[2, 5], [2, 7]]) SignatureData.init).ok = true ∧
    alookup (signStep DUMMY_SIGNING_PROVIDER creatorAcceptAll
        (CScript.msigScript 1 [[2, 5], [2, 7]]) SignatureData.init).sigdata.signatures
        (keyIdOf [2, 7]) = none ∧
    (createSigH creatorAcceptAll
        (signStep DUMMY_SIGNING_PROVIDER creatorAcceptAll
          (CScript.msigScript 1 [[2, 5], [2, 7]]) SignatureData.init).sigdata
        DUMMY_SIGNING_PROVIDER (keyIdOf [2, 7])
        (CScript.msigScript 1 [[2, 5], [2, 7]])).1 = some [99, keyIdOf [2, 7]] := by
  decide

/-- C9: the dummy creator's CreateSig always succeeds and always returns the
same 72-byte signature, 0x30 0x45 0x02 0x21 0x01, then 32 zero bytes, then
0x02 0x20 0x01, then 31 zero bytes, terminated by the sighash byte
SIGHASH_ALL | SIGHASH_FORKID = 0x41, independently of the provider, the key
id and the script code. -/
theorem claim_C9_dummy_signature (provider : SigningProvider) (keyid : Nat)
    (scriptCode : CScript) :
    dummyCreateSig provider keyid scriptCode =
      some ([0x30, 0x45, 0x02, 0x21, 0x01] ++ List.replicate 32 0 ++
        [0x02, 0x20, 0x01] ++ List.replicate 31 0 ++ [0x41]) ∧
    SIGHASH_ALL ||| SIGHASH_FORKID = 0x41 ∧
    ([0x30, 0x45, 0x02, 0x21, 0x01] ++ List.replicate 32 0 ++
      [0x02, 0x20, 0x01] ++ List.replicate 31 0 ++ [0x41]).length = 72 := by
  refine ⟨rfl, by decide, by decide⟩

/-- C6: completion absorption in SignatureData::MergeSignatureData: a
complete receiver ignores the argument; an incomplete receiver adopts a
complete argument wholesale; when neither is complete, the receiver adopts
the argument's redeem_script exactly when its own is empty and takes the
key-wise left-biased union of the signature maps, existing keys winning. -/
theorem claim_C6_merge_absorption (a b : SignatureData) :
    (a.complete = true → SignatureData.mergeSignatureData a b = a) ∧
    (a.complete = false → b.complete = true →
      SignatureData.mergeSignatureData a b = b) ∧
    (a.complete = false → b.complete = false →
      ((SignatureData.mergeSignatureData a b).redeem_script =
        if a.redeem_script.isEmpty then b.redeem_script else a.redeem_script) ∧
      (∀ k v, alookup a.signatures k = some v →
        alookup (SignatureData.mergeSignatureData a b).signatures k = some v) ∧
      (∀ k, alookup a.signatures k = none →
        alookup (SignatureData.mergeSignatureData a b).signatures k =
          alookup b.signatures k) ∧
      (SignatureData.mergeSignatureData a b).complete = false ∧
      (SignatureData.mergeSignatureData a b).scriptSig = a.scriptSig) := by
  refine ⟨?_, ?_, ?_⟩
  · intro ha
    simp [SignatureData.mergeSignatureData, ha]
  · intro ha hb
    simp [SignatureData.mergeSignatureData, ha, hb]
  · intro ha hb
    refine ⟨?_, ?_, ?_, ?_, ?_⟩
    · simp only [SignatureData.mergeSignatureData, ha, hb]
      simp only [Bool.false_eq_true, if_false]
      by_cases hae : a.redeem_script.isEmpty = true
      · by_cases hbe : b.redeem_script.isEmpty = true
        · simp [hae, hbe, isEmpty_eq_emptyScript _ hae, isEmpty_eq_emptyScript _ hbe]
        · simp [hae, hbe]
      · simp [hae]
    · intro k v hk
      simp only [SignatureData.mergeSignatureData, ha, hb]
      simp only [Bool.false_eq_true, if_false]
      exact alookup_aunion_pres _ _ _ _ hk
    · intro k hk
      simp only [SignatureData.mergeSignatureData, ha, hb]
      simp only [Bool.false_eq_true, if_false]
      exact alookup_aunion_none _ _ _ hk
    · simp [SignatureData.mergeSignatureData, ha, hb]
    · simp [SignatureData.mergeSignatureData, ha, hb]

theorem claim_C6_merge_absorption_witness :
    SignatureData.mergeSignatureData { SignatureData.init with complete := true }
        SignatureData.init = { SignatureData.init with complete := true } ∧
    SignatureData.mergeSignatureData SignatureData.init
        { SignatureData.init with complete := true } =
      { SignatureData.init with complete := true } ∧
    (SignatureData.mergeSignatureData SignatureData.init
        SignatureData.init).redeem_script =
      (if SignatureData.init.redeem_script.isEmpty then
        SignatureData.init.redeem_script
      else SignatureData.init.redeem_script) :=
  ⟨(claim_C6_merge_absorption _ _).1 rfl,
    (claim_C6_merge_absorption _ _).2.1 rfl rfl,
    ((claim_C6_merge_absorption SignatureData.init SignatureData.init).2.2
      rfl rfl).1⟩

/-- C7 (counterexample): PSBTInput::Merge is not commutative on partial
data: two non-finalized inputs that hold different signatures for the same
key id merge to different partial-signature maps depending on the order. -/
theorem claim_C7_counterexample :
    psbtA.final_script_sig.isEmpty = true ∧
    psbtB.final_script_sig.isEmpty = true ∧
    alookup (psbtA.merge psbtB).part_sigs 1 ≠
      alookup (psbtB.merge psbtA).part_sigs 1 := by
  refine ⟨rfl, rfl, ?_⟩
  decide

/-- C7 (amended): PSBTInput::Merge is commutative on partial data provided
the two inputs agree on the signatures of shared key ids and their redeem
scripts are compatible (one empty, or equal): then both merge orders give
the same map of key id to signature pair and the same redeem_script, namely
whichever side's was non-empty. -/
theorem claim_C7_merge_commutes (a b : PSBTInput)
    (hfa : a.final_script_sig.isEmpty = true)
    (hfb : b.final_script_sig.isEmpty = true)
    (hagree : ∀ k va vb, alookup a.part_sigs k = some va →
      alookup b.part_sigs k = some vb → va = vb)
    (hred : a.redeem_script.isEmpty = true ∨ b.redeem_script.isEmpty = true ∨
      a.redeem_script = b.redeem_script) :
    (∀ k, alookup (a.merge b).part_sigs k = alookup (b.merge a).part_sigs k) ∧
    (a.merge b).redeem_script = (b.merge a).redeem_script ∧
    (a.redeem_script.isEmpty = false →
      (a.merge b).redeem_script = a.redeem_script) ∧
    (a.redeem_script.isEmpty = true →
      (a.merge b).redeem_script = b.redeem_script) := by
  have hsig : ∀ k, alookup (a.merge b).part_sigs k =
      alookup (b.merge a).part_sigs k := by
    intro k
    simp only [PSBTInput.merge]
    rw [alookup_aunion, alookup_aunion]
    cases hA : alookup a.part_sigs k with
    | some va =>
      cases hB : alookup b.part_sigs k with
      | some vb => exact (hagree k va vb hA hB).symm ▸ rfl
      | none => rfl
    | none =>
      cases hB : alookup b.part_sigs k with
      | some vb => rfl
      | none => rfl
  have hredeq : (a.merge b).redeem_script = (b.merge a).redeem_script ∧
      (a.redeem_script.isEmpty = false →
        (a.merge b).redeem_script = a.redeem_script) ∧
      (a.redeem_script.isEmpty = true →
        (a.merge b).redeem_script = b.redeem_script) := by
    simp only [PSBTInput.merge]
    by_cases hae : a.redeem_script.isEmpty = true
    · by_cases hbe : b.redeem_script.isEmpty = true
      · simp [hae, hbe, isEmpty_eq_emptyScript _ hae, isEmpty_eq_emptyScript _ hbe]
      · simp [hae, hbe]
    · by_cases hbe : b.redeem_script.isEmpty = true
      · simp [hae, hbe]
      · have heq : a.redeem_script = b.redeem_script := by
          rcases hred with h | h | h
          · exact absurd h hae
          · exact absurd h hbe
          · exact h
        simp [hae, hbe, heq]
    
  exact ⟨hsig, hredeq.1, hredeq.2.1, hredeq.2.2⟩

theorem claim_C7_merge_commutes_witness :
    (∀ k, alookup (psbtA.merge { psbtA with part_sigs := [] }).part_sigs k =
      alookup (PSBTInput.merge { psbtA with part_sigs := [] } psbtA).part_sigs k) ∧
    (psbtA.merge { psbtA with part_sigs := [] }).redeem_script =
      (PSBTInput.merge { psbtA with part_sigs := [] } psbtA).redeem_script ∧
    (psbtA.redeem_script.isEmpty = false →
      (psbtA.merge { psbtA with part_sigs := [] }).redeem_script =
        psbtA.redeem_script) ∧
    (psbtA.redeem_script.isEmpty = true →
      (psbtA.merge { psbtA with part_sigs := [] }).redeem_script =
        { psbtA with part_sigs := ([] : List (Nat × SigPair)) }.redeem_script) :=
  claim_C7_merge_commutes psbtA { psbtA with part_sigs := [] } rfl rfl
    (by intro k va vb h1 h2; simp [alookup] at h2)
    (Or.inl rfl)

/-- C5: no nested P2SH: when the outer script is SCRIPTHASH and the embedded
redeem script found for it itself resolves to SCRIPTHASH, ProduceSignature
returns false and leaves complete false, whatever the creator, the provider
and the rest of the signature data. -/
theorem claim_C5_no_nested_p2sh (provider : SigningProvider) (creator : Creator)
    (sd : SignatureData) (sid sid2 : Nat) (sub : CScript)
    (hc : sd.complete = false)
    (hget : getCScript provider sd sid = some sub)
    (hsub : solver sub = SolverResult.scripthash sid2) :
    (produceSignature provider creator (CScript.p2shScript sid) sd).1 = false ∧
    (produceSignature provider creator (CScript.p2shScript sid) sd).2.complete =
      false := by
  have hstep : signStep provider creator (CScript.p2shScript sid) sd =
      ⟨true, [encodeScript sub], .scripthash, sd⟩ := by
    simp [signStep, solver, hget]
  have hsub2 : ∀ sd1 : SignatureData,
      (signStep provider creator sub sd1).whichType = TxoutType.scripthash := by
    intro sd1
    rw [signStep, hsub]
    cases hg : getCScript provider sd1 sid2 <;> simp [hg]
  constructor <;>
    simp [produceSignature, hc, hstep, decodeScript_encodeScript, hsub2]

theorem claim_C5_no_nested_p2sh_witness :
    (produceSignature
        ⟨fun _ => none, fun _ => none, fun _ => some (CScript.p2shScript 0)⟩
        DUMMY_SIGNATURE_CREATOR (CScript.p2shScript 5) SignatureData.init).1 =
      false ∧
    (produceSignature
        ⟨fun _ => none, fun _ => none, fun _ => some (CScript.p2shScript 0)⟩
        DUMMY_SIGNATURE_CREATOR (CScript.p2shScript 5) SignatureData.init).2.complete =
      false :=
  claim_C5_no_nested_p2sh
    ⟨fun _ => none, fun _ => none, fun _ => some (CScript.p2shScript 0)⟩
    DUMMY_SIGNATURE_CREATOR SignatureData.init 5 0 (CScript.p2shScript 0)
    rfl rfl rfl

/-! Frame lemmas: the signing pipeline never reads the scriptSig or complete
fields of the SignatureData it threads. -/

theorem withSC_signatures (sd : SignatureData) (s : CScript) (b : Bool) :
    (withSC sd s b).signatures = sd.signatures := rfl

theorem withSC_misc (sd : SignatureData) (s : CScript) (b : Bool) :
    (withSC sd s b).misc_pubkeys = sd.misc_pubkeys := rfl

theorem withSC_redeem (sd : SignatureData) (s : CScript) (b : Bool) :
    (withSC sd s b).redeem_script = sd.redeem_script := rfl

theorem withSC_scriptSig (sd : SignatureData) (s : CScript) (b : Bool) :
    (withSC sd s b).scriptSig = s := rfl

theorem withSC_complete (sd : SignatureData) (s : CScript) (b : Bool) :
    (withSC sd s b).complete = b := rfl

theorem getCScript_frame (P : SigningProvider) (sd : SignatureData)
    (sid : Nat) (s : CScript) (b : Bool) :
    getCScript P (withSC sd s b) sid = getCScript P sd sid := by
  simp only [getCScript, withSC_redeem]

theorem getPubKeyH_frame (P : SigningProvider) (sd : SignatureData) (a : Nat)
    (s : CScript) (b : Bool) :
    getPubKeyH P (withSC sd s b) a =
      ((getPubKeyH P sd a).1, withSC (getPubKeyH P sd a).2 s b) := by
  simp only [getPubKeyH, withSC_signatures, withSC_misc]
  cases hp : P.getPubKey? a with
  | some pk => rfl
  | none =>
    cases hs : alookup sd.signatures a with
    | some pr => rfl
    | none =>
      cases hm : alookup sd.misc_pubkeys a with
      | some pk => rfl
      | none => rfl

theorem createSigH_frame (C : Creator) (sd : SignatureData) (P : SigningProvider)
    (kid : Nat) (sc : CScript) (s : CScript) (b : Bool) :
    createSigH C (withSC sd s b) P kid sc =
      ((createSigH C sd P kid sc).1, withSC (createSigH C sd P kid sc).2 s b) := by
  simp only [createSigH, withSC_signatures]
  cases hs : alookup sd.signatures kid with
  | some pr => rfl
  | none =>
    rw [getPubKeyH_frame]
    cases hc : C.createSig P kid sc with
    | some sig => rfl
    | none => rfl

theorem msigLoop_frame (P : SigningProvider) (C : Creator) (S : CScript)
    (required : Nat) :
    ∀ (pks ret : List Valtype) (sd : SignatureData) (s : CScript) (b : Bool),
      msigLoop P C S required pks ret (withSC sd s b) =
        ((msigLoop P C S required pks ret sd).1,
          withSC (msigLoop P C S required pks ret sd).2 s b) := by
  intro pks
  induction pks with
  | nil => intro ret sd s b; simp [msigLoop]
  | cons pk rest ih =>
    intro ret sd s b
    simp only [msigLoop]
    by_cases h : ret.length < required + 1
    · simp only [if_pos h]
      rw [createSigH_frame]
      cases hc : createSigH C sd P (keyIdOf pk) S with
      | mk r sd1 =>
        cases r with
        | some sig => simpa using ih (ret ++ [sig]) sd1 s b
        | none => simpa using ih ret sd1 s b
    · simp only [if_neg h]
      exact ih ret sd s b

theorem signStep_frame (P : SigningProvider) (C : Creator) (S : CScript)
    (sd : SignatureData) (s : CScript) (b : Bool) :
    signStep P C S (withSC sd s b) =
      ⟨(signStep P C S sd).ok, (signStep P C S sd).ret,
        (signStep P C S sd).whichType, withSC (signStep P C S sd).sigdata s b⟩ := by
  cases hS : solver S with
  | nonstandard => simp [signStep, hS]
  | nulldata => simp [signStep, hS]
  | pubkey pk =>
    simp only [signStep, hS]
    rw [createSigH_frame]
    cases hc : createSigH C sd P (keyIdOf pk) S with
    | mk r sd1 => cases r <;> simp
  | pubkeyhash kid =>
    simp only [signStep, hS]
    rw [createSigH_frame]
    cases hc : createSigH C sd P kid S with
    | mk r sd1 => cases r <;> simp
  | scripthash sid =>
    simp only [signStep, hS]
    rw [getCScript_frame]
    cases hg : getCScript P sd sid <;> simp
  | multisig m pks =>
    simp only [signStep, hS]
    rw [msigLoop_frame]

/-! Monotonicity of the signing pipeline over the SignatureData maps, and
replay: running a step again from its own output state reproduces it. -/

theorem getPubKeyH_rel (P : SigningProvider) (sd : SignatureData) (a : Nat) :
    (getPubKeyH P sd a).2.signatures = sd.signatures ∧
    (getPubKeyH P sd a).2.redeem_script = sd.redeem_script ∧
    MiscPres sd (getPubKeyH P sd a).2 := by
  simp only [getPubKeyH]
  cases hp : P.getPubKey? a with
  | some pk =>
    exact ⟨rfl, rfl, fun k hk => isSome_alookup_aemplace_pres _ _ _ _ hk⟩
  | none =>
    cases hs : alookup sd.signatures a with
    | some pr => exact ⟨rfl, rfl, fun k hk => hk⟩
    | none =>
      cases hm : alookup sd.misc_pubkeys a with
      | some pk => exact ⟨rfl, rfl, fun k hk => hk⟩
      | none => exact ⟨rfl, rfl, fun k hk => hk⟩

theorem createSigH_rel (C : Creator) (sd : SignatureData) (P : SigningProvider)
    (kid : Nat) (sc : CScript) :
    SigPres sd (createSigH C sd P kid sc).2 ∧
    MiscPres sd (createSigH C sd P kid sc).2 ∧
    AbsPres P C sc sd (createSigH C sd P kid sc).2 ∧
    (createSigH C sd P kid sc).2.redeem_script = sd.redeem_script := by
  obtain ⟨hg1, hg2, hg3⟩ := getPubKeyH_rel P sd kid
  simp only [createSigH]
  cases hs : alookup sd.signatures kid with
  | some pr =>
    exact ⟨fun k v h => h, fun k h => h, fun k h1 _ => h1, by trivial⟩
  | none =>
    cases hc : C.createSig P kid sc with
    | some sig =>
      refine ⟨?_, ?_, ?_, ?_⟩
      · intro k v h
        show alookup
          (aemplace (getPubKeyH P sd kid).2.signatures kid
            ((getPubKeyH P sd kid).1.getD [], sig)) k = some v
        rw [hg1]
        exact alookup_aemplace_pres _ _ _ _ _ h
      · intro k h
        exact hg3 k h
      · intro k h1 h2
        have hkk : k ≠ kid := by
          intro he
          subst he
          rw [hc] at h2
          exact Option.noConfusion h2
        show alookup
          (aemplace (getPubKeyH P sd kid).2.signatures kid
            ((getPubKeyH P sd kid).1.getD [], sig)) k = none
        rw [hg1, alookup_aemplace_ne _ _ _ _ hkk]
        exact h1
      · exact hg2
    | none =>
      refine ⟨?_, hg3, ?_, hg2⟩
      · intro k v h
        show alookup (getPubKeyH P sd kid).2.signatures k = some v
        rw [hg1]
        exact h
      · intro k h1 _
        show alookup (getPubKeyH P sd kid).2.signatures k = none
        rw [hg1]
        exact h1

theorem msigLoop_rel (P : SigningProvider) (C : Creator) (S : CScript)
    (required : Nat) :
    ∀ (pks ret : List Valtype) (sd : SignatureData),
      SigPres sd (msigLoop P C S required pks ret sd).2 ∧
      MiscPres sd (msigLoop P C S required pks ret sd).2 ∧
      AbsPres P C S sd (msigLoop P C S required pks ret sd).2 ∧
      (msigLoop P C S required pks ret sd).2.redeem_script = sd.redeem_script := by
  intro pks
  induction pks with
  | nil =>
    intro ret sd
    simp only [msigLoop]
    exact ⟨fun k v h => h, fun k h => h, fun k h1 _ => h1, by trivial⟩
  | cons pk rest ih =>
    intro ret sd
    simp only [msigLoop]
    by_cases h : ret.length < required + 1
    · simp only [if_pos h]
      have hrel := createSigH_rel C sd P (keyIdOf pk) S
      cases hc : createSigH C sd P (keyIdOf pk) S with
      | mk r sd1 =>
        rw [hc] at hrel
        cases r with
        | some sig =>
          obtain ⟨h1, h2, h3, h4⟩ := ih (ret ++ [sig]) sd1
          exact ⟨fun k v hh => h1 k v (hrel.1 k v hh),
            fun k hh => h2 k (hrel.2.1 k hh),
            fun k ha hb => h3 k (hrel.2.2.1 k ha hb) hb,
            h4.trans hrel.2.2.2⟩
        | none =>
          obtain ⟨h1, h2, h3, h4⟩ := ih ret sd1
          exact ⟨fun k v hh => h1 k v (hrel.1 k v hh),
            fun k hh => h2 k (hrel.2.1 k hh),
            fun k ha hb => h3 k (hrel.2.2.1 k ha hb) hb,
            h4.trans hrel.2.2.2⟩
    · simp only [if_neg h]
      exact ih ret sd

theorem signStep_rel (P : SigningProvider) (C : Creator) (S : CScript)
    (sd : SignatureData) :
    SigPres sd (signStep P C S sd).sigdata ∧
    MiscPres sd (signStep P C S sd).sigdata ∧
    AbsPres P C S sd (signStep P C S sd).sigdata ∧
    (signStep P C S sd).sigdata.redeem_script = sd.redeem_script := by
  cases hS : solver S with
  | nonstandard =>
    simp only [signStep, hS]
    exact ⟨fun k v h => h, fun k h => h, fun k h1 _ => h1, by trivial⟩
  | nulldata =>
    simp only [signStep, hS]
    exact ⟨fun k v h => h, fun k h => h, fun k h1 _ => h1, by trivial⟩
  | pubkey pk =>
    simp only [signStep, hS]
    have hrel := createSigH_rel C sd P (keyIdOf pk) S
    cases hc : createSigH C sd P (keyIdOf pk) S with
    | mk r sd1 =>
      rw [hc] at hrel
      cases r <;> exact hrel
  | pubkeyhash kid =>
    simp only [signStep, hS]
    have hrel := createSigH_rel C sd P kid S
    cases hc : createSigH C sd P kid S with
    | mk r sd1 =>
      rw [hc] at hrel
      cases r <;> exact hrel
  | scripthash sid =>
    simp only [signStep, hS]
    cases hg : getCScript P sd sid <;>
      exact ⟨fun k v h => h, fun k h => h, fun k h1 _ => h1, by trivial⟩
  | multisig m pks =>
    simp only [signStep, hS]
    exact msigLoop_rel P C S m pks [[]] sd

theorem createSigH_replay (C : Creator) (sd sdF : SignatureData)
    (P : SigningProvider) (kid : Nat) (sc : CScript)
    (r : Option Valtype) (sd1 : SignatureData)
    (hc : createSigH C sd P kid sc = (r, sd1))
    (hS : SigPres sd1 sdF) (hM : MiscPres sd1 sdF)
    (hA : AbsPres P C sc sd1 sdF) :
    createSigH C sdF P kid sc = (r, sdF) := by
  simp only [createSigH] at hc ⊢
  cases hs : alookup sd.signatures kid with
  | some pr =>
    simp only [hs] at hc
    injection hc with h1 h2
    subst h1
    subst h2
    have hF : alookup sdF.signatures kid = some pr := hS kid pr hs
    simp only [hF]
  | none =>
    simp only [hs] at hc
    cases hcr : C.createSig P kid sc with
    | some sig =>
      simp only [hcr] at hc
      injection hc with h1 h2
      subst h1
      have hlook : alookup sd1.signatures kid = some ((getPubKeyH P sd kid).1.getD [], sig) := by
        rw [← h2]
        show alookup
          (aemplace (getPubKeyH P sd kid).2.signatures kid
            ((getPubKeyH P sd kid).1.getD [], sig)) kid = _
        rw [(getPubKeyH_rel P sd kid).1]
        exact alookup_aemplace_self_of_none _ _ _ hs
      have hF := hS kid _ hlook
      simp only [hF]
    | none =>
      simp only [hcr] at hc
      injection hc with h1 h2
      subst h1
      have hg1 : sd1.signatures = sd.signatures := by
        rw [← h2]
        exact (getPubKeyH_rel P sd kid).1
      have habs : alookup sdF.signatures kid = none := by
        apply hA kid ?_ hcr
        rw [hg1]
        exact hs
      simp only [habs, hcr]
      have hgF : (getPubKeyH P sdF kid).2 = sdF := by
        cases hp : P.getPubKey? kid with
        | some pk =>
          have h1run : (getPubKeyH P sd kid).2 =
              { sd with misc_pubkeys := aemplace sd.misc_pubkeys (keyIdOf pk) pk } := by
            simp [getPubKeyH, hp]
          have hpres : (alookup sdF.misc_pubkeys (keyIdOf pk)).isSome = true := by
            apply hM
            rw [← h2, h1run]
            exact isSome_alookup_aemplace _ _ _
          simp [getPubKeyH, hp, aemplace_of_isSome _ _ _ hpres]
        | none =>
          simp only [getPubKeyH, hp]
          cases h3 : alookup sdF.signatures kid with
          | some pr => simp [h3]
          | none =>
            simp only [h3]
            cases h4 : alookup sdF.misc_pubkeys kid <;> simp [h4]
      rw [hgF]

theorem msigLoop_replay (P : SigningProvider) (C : Creator) (S : CScript)
    (required : Nat) :
    ∀ (pks ret : List Valtype) (sd : SignatureData) (retF : List Valtype)
      (sdF : SignatureData),
      msigLoop P C S required pks ret sd = (retF, sdF) →
      msigLoop P C S required pks ret sdF = (retF, sdF) := by
  intro pks
  induction pks with
  | nil =>
    intro ret sd retF sdF h
    simp only [msigLoop] at h ⊢
    injection h with h1 h2
    subst h1
    subst h2
    rfl
  | cons pk rest ih =>
    intro ret sd retF sdF h
    simp only [msigLoop] at h ⊢
    by_cases hlt : ret.length < required + 1
    · simp only [if_pos hlt] at h ⊢
      cases hc : createSigH C sd P (keyIdOf pk) S with
      | mk r sd1 =>
        simp only [hc] at h
        cases r with
        | some sig =>
          replace h : msigLoop P C S required rest (ret ++ [sig]) sd1 =
            (retF, sdF) := h
          have hrel := msigLoop_rel P C S required rest (ret ++ [sig]) sd1
          rw [h] at hrel
          have hcr := createSigH_replay C sd sdF P (keyIdOf pk) S (some sig) sd1 hc
            hrel.1 hrel.2.1 hrel.2.2.1
          simp only [hcr]
          exact ih (ret ++ [sig]) sd1 retF sdF h
        | none =>
          replace h : msigLoop P C S required rest ret sd1 = (retF, sdF) := h
          have hrel := msigLoop_rel P C S required rest ret sd1
          rw [h] at hrel
          have hcr := createSigH_replay C sd sdF P (keyIdOf pk) S none sd1 hc
            hrel.1 hrel.2.1 hrel.2.2.1
          simp only [hcr]
          exact ih ret sd1 retF sdF h
    · simp only [if_neg hlt] at h ⊢
      exact ih ret sd retF sdF h

theorem signStep_replay (P : SigningProvider) (C : Creator) (S : CScript)
    (sd : SignatureData) :
    signStep P C S (signStep P C S sd).sigdata = signStep P C S sd := by
  cases hS : solver S with
  | nonstandard => simp [signStep, hS]
  | nulldata => simp [signStep, hS]
  | pubkey pk =>
    simp only [signStep, hS]
    cases hc : createSigH C sd P (keyIdOf pk) S with
    | mk r sd1 =>
      have hcr := createSigH_replay C sd sd1 P (keyIdOf pk) S r sd1 hc
        (fun k v h => h) (fun k h => h) (fun k h1 _ => h1)
      cases r <;> simp [hcr]
  | pubkeyhash kid =>
    simp only [signStep, hS]
    cases hc : createSigH C sd P kid S with
    | mk r sd1 =>
      have hcr := createSigH_replay C sd sd1 P kid S r sd1 hc
        (fun k v h => h) (fun k h => h) (fun k h1 _ => h1)
      cases r <;> simp [hcr]
  | scripthash sid =>
    simp only [signStep, hS]
    cases hg : getCScript P sd sid <;> simp [hg]
  | multisig m pks =>
    simp only [signStep, hS]
    have h := msigLoop_replay P C S m pks [[]] sd
      (msigLoop P C S m pks [[]] sd).1 (msigLoop P C S m pks [[]] sd).2 rfl
    simp [h]

/-! The two branch shapes of ProduceSignature, and idempotence. -/

theorem sd_set_redeem_self (X : SignatureData) (r : CScript)
    (h : X.redeem_script = r) : { X with redeem_script := r } = X := by
  subst h
  rfl

theorem produce_eq_of_not_p2sh (P : SigningProvider) (C : Creator) (S : CScript)
    (sd : SignatureData) (hc : sd.complete = false)
    (hbr : ¬((signStep P C S sd).ok = true ∧
      (signStep P C S sd).whichType = TxoutType.scripthash)) :
    produceSignature P C S sd =
      ((signStep P C S sd).ok &&
          verifyScript C.checker (pushAll (signStep P C S sd).ret) S,
        withSC (signStep P C S sd).sigdata (pushAll (signStep P C S sd).ret)
          ((signStep P C S sd).ok &&
            verifyScript C.checker (pushAll (signStep P C S sd).ret) S)) := by
  simp only [produceSignature, hc, Bool.false_eq_true, if_false, if_neg hbr]
  rfl

theorem produce_eq_p2sh (P : SigningProvider) (C : Creator) (S : CScript)
    (sd : SignatureData) (hc : sd.complete = false)
    (hbr : (signStep P C S sd).ok = true ∧
      (signStep P C S sd).whichType = TxoutType.scripthash) :
    produceSignature P C S sd =
      (let sub := decodeScript ((signStep P C S sd).ret.headD [])
       let o2 := signStep P C sub
         { (signStep P C S sd).sigdata with redeem_script := sub }
       let solved := o2.ok && ! decide (o2.whichType = TxoutType.scripthash)
       let ssig := pushAll (o2.ret ++ [encodeScript sub])
       let cpl := solved && verifyScript C.checker ssig S
       (cpl, withSC o2.sigdata ssig cpl)) := by
  simp only [produceSignature, hc, Bool.false_eq_true, if_false, if_pos hbr]
  rfl

theorem whichType_scripthash (P : SigningProvider) (C : Creator) (S : CScript)
    (sd : SignatureData)
    (h : (signStep P C S sd).whichType = TxoutType.scripthash) :
    ∃ sid, solver S = SolverResult.scripthash sid := by
  cases hS : solver S with
  | nonstandard => simp only [signStep, hS] at h; exact absurd h (by simp)
  | nulldata => simp only [signStep, hS] at h; exact absurd h (by simp)
  | pubkey pk =>
    simp only [signStep, hS] at h
    cases hcs : createSigH C sd P (keyIdOf pk) S with
    | mk r sd1 =>
      simp only [hcs] at h
      cases r <;> simp at h
  | pubkeyhash kid =>
    simp only [signStep, hS] at h
    cases hcs : createSigH C sd P kid S with
    | mk r sd1 =>
      simp only [hcs] at h
      cases r <;> simp at h
  | scripthash sid => exact ⟨sid, rfl⟩
  | multisig m pks => simp only [signStep, hS] at h; exact absurd h (by simp)

theorem signStep_scripthash_some (P : SigningProvider) (C : Creator)
    (S : CScript) (sd : SignatureData) (sid : Nat)
    (hS : solver S = SolverResult.scripthash sid)
    (hok : (signStep P C S sd).ok = true) :
    ∃ w, getCScript P sd sid = some w ∧
      signStep P C S sd = ⟨true, [encodeScript w], .scripthash, sd⟩ := by
  cases hg : getCScript P sd sid with
  | some w =>
    refine ⟨w, rfl, ?_⟩
    simp [signStep, hS, hg]
  | none =>
    simp only [signStep, hS, hg] at hok
    exact absurd hok (by simp)

/-- C4: ProduceSignature is idempotent: for every provider, creator, locking
script and SignatureData, running it a second time from the first run's
output changes nothing and returns the same flag, and the stored complete
flag always equals the returned flag, so a first run that completed makes
the second run return true immediately through the early-return, with no
mutation. -/
theorem claim_C4_produce_idempotent (P : SigningProvider) (C : Creator)
    (S : CScript) (sd : SignatureData) :
    produceSignature P C S (produceSignature P C S sd).2 =
      produceSignature P C S sd ∧
    (produceSignature P C S sd).2.complete = (produceSignature P C S sd).1 := by
  by_cases hc : sd.complete = true
  · have h1 : produceSignature P C S sd = (true, sd) := by
      simp [produceSignature, hc]
    rw [h1]
    exact ⟨h1, hc⟩
  · replace hc : sd.complete = false := by
      revert hc; cases sd.complete <;> simp
    by_cases hbr : (signStep P C S sd).ok = true ∧
        (signStep P C S sd).whichType = TxoutType.scripthash
    · -- P2SH branch
      obtain ⟨sid, hS⟩ := whichType_scripthash P C S sd hbr.2
      obtain ⟨w, hg, hstep⟩ := signStep_scripthash_some P C S sd sid hS hbr.1
      have h1 := produce_eq_p2sh P C S sd hc hbr
      rw [hstep] at h1
      simp only [List.headD_cons, decodeScript_encodeScript] at h1
      -- name the pieces of the first run
      set o2 := signStep P C w { sd with redeem_script := w } with ho2
      set solved := o2.ok && ! decide (o2.whichType = TxoutType.scripthash)
        with hsolved
      set ssig := pushAll (o2.ret ++ [encodeScript w]) with hssig
      set cpl := solved && verifyScript C.checker ssig S with hcpl
      have h1' : produceSignature P C S sd = (cpl, withSC o2.sigdata ssig cpl) := h1
      refine ⟨?_, by rw [h1']; rfl⟩
      rw [h1']
      by_cases hdone : cpl = true
      · have hcompl : (withSC o2.sigdata ssig cpl).complete = true := by
          rw [withSC_complete, hdone]
        have heq : produceSignature P C S (withSC o2.sigdata ssig cpl) =
            (true, withSC o2.sigdata ssig cpl) := by
          simp [produceSignature, hcompl]
        rw [heq, hdone]
      · replace hdone : cpl = false := by
          revert hdone; cases cpl <;> simp
        -- the second run recomputes and reproduces the same state
        have hredeem : o2.sigdata.redeem_script = w := by
          have := (signStep_rel P C w { sd with redeem_script := w }).2.2.2
          rw [← ho2] at this
          simpa using this
        have hg2 : getCScript P (withSC o2.sigdata ssig cpl) sid = some w := by
          rw [getCScript_frame]
          simp only [getCScript] at hg ⊢
          cases hp : P.getCScript? sid with
          | some s =>
            simp only [hp] at hg ⊢
            exact hg
          | none =>
            simp only [hp] at hg ⊢
            rw [hredeem]
            by_cases hid : scriptIdOf sd.redeem_script = sid
            · rw [if_pos hid] at hg
              have hw : sd.redeem_script = w := by injection hg
              rw [← hw, if_pos hid]
            · rw [if_neg hid] at hg
              exact absurd hg (by simp)
        have hstep2 : signStep P C S (withSC o2.sigdata ssig cpl) =
            ⟨true, [encodeScript w], .scripthash, withSC o2.sigdata ssig cpl⟩ := by
          simp [signStep, hS, hg2]
        have hbr2 : (signStep P C S (withSC o2.sigdata ssig cpl)).ok = true ∧
            (signStep P C S (withSC o2.sigdata ssig cpl)).whichType =
              TxoutType.scripthash := by
          rw [hstep2]; exact ⟨rfl, rfl⟩
        have hcpl2 : (withSC o2.sigdata ssig cpl).complete = false := by
          rw [withSC_complete, hdone]
        have h2 := produce_eq_p2sh P C S (withSC o2.sigdata ssig cpl) hcpl2 hbr2
        rw [hstep2] at h2
        simp only [List.headD_cons, decodeScript_encodeScript] at h2
        rw [h2]
        -- the inner redeem update is the identity, then replay the inner step
        have hinner : { (withSC o2.sigdata ssig cpl) with redeem_script := w } =
            withSC o2.sigdata ssig cpl := by
          apply sd_set_redeem_self
          rw [withSC_redeem, hredeem]
        rw [hinner]
        have hrep : signStep P C w (withSC o2.sigdata ssig cpl) =
            ⟨o2.ok, o2.ret, o2.whichType, withSC o2.sigdata ssig cpl⟩ := by
          rw [signStep_frame]
          rw [ho2, signStep_replay, ← ho2]
        rw [hrep]
        rfl
    · -- plain branch
      have h1 := produce_eq_of_not_p2sh P C S sd hc hbr
      set o := signStep P C S sd with ho
      set cpl := o.ok && verifyScript C.checker (pushAll o.ret) S with hcpl
      have h1' : produceSignature P C S sd =
          (cpl, withSC o.sigdata (pushAll o.ret) cpl) := h1
      refine ⟨?_, by rw [h1']; rfl⟩
      rw [h1']
      by_cases hdone : cpl = true
      · have hcompl : (withSC o.sigdata (pushAll o.ret) cpl).complete = true := by
          rw [withSC_complete, hdone]
        have heq : produceSignature P C S (withSC o.sigdata (pushAll o.ret) cpl) =
            (true, withSC o.sigdata (pushAll o.ret) cpl) := by
          simp [produceSignature, hcompl]
        rw [heq, hdone]
      · replace hdone : cpl = false := by
          revert hdone; cases cpl <;> simp
        have hrep : signStep P C S (withSC o.sigdata (pushAll o.ret) cpl) =
            ⟨o.ok, o.ret, o.whichType, withSC o.sigdata (pushAll o.ret) cpl⟩ := by
          rw [signStep_frame]
          rw [ho, signStep_replay, ← ho]
        have hbr2 : ¬((signStep P C S (withSC o.sigdata (pushAll o.ret) cpl)).ok = true ∧
            (signStep P C S (withSC o.sigdata (pushAll o.ret) cpl)).whichType =
              TxoutType.scripthash) := by
          rw [hrep]
          exact hbr
        have hcpl2 : (withSC o.sigdata (pushAll o.ret) cpl).complete = false := by
          rw [withSC_complete, hdone]
        have h2 := produce_eq_of_not_p2sh P C S
          (withSC o.sigdata (pushAll o.ret) cpl) hcpl2 hbr2
        rw [h2, hrep]
        rfl

theorem withSC_set_redeem (X : SignatureData) (z : CScript) (b : Bool)
    (r : CScript) :
    ({ (withSC X z b) with redeem_script := r } : SignatureData) =
      withSC { X with redeem_script := r } z b := rfl

/-- C10: when the incoming SignatureData is not complete, the result of
ProduceSignature does not depend on the previously stored scriptSig at all:
it is unconditionally overwritten with the newly assembled push script, even
when the call returns false, while every existing signatures entry is
preserved and the resulting scriptSig is a push script built by PushAll. -/
theorem claim_C10_scriptSig_overwrite (P : SigningProvider) (C : Creator)
    (S : CScript) (sd : SignatureData) (x y : CScript)
    (hc : sd.complete = false) :
    produceSignature P C S { sd with scriptSig := x } =
      produceSignature P C S { sd with scriptSig := y } ∧
    (∀ k v, alookup sd.signatures k = some v →
      alookup (produceSignature P C S { sd with scriptSig := x }).2.signatures k =
        some v) ∧
    ∃ items, (produceSignature P C S { sd with scriptSig := x }).2.scriptSig =
      pushAll items := by
  have hz : ∀ z : CScript,
      ({ sd with scriptSig := z } : SignatureData) = withSC sd z false := by
    intro z
    obtain ⟨c, ss, rs, sigs, misc⟩ := sd
    simp only at hc
    subst hc
    rfl
  by_cases hbr : (signStep P C S sd).ok = true ∧
      (signStep P C S sd).whichType = TxoutType.scripthash
  · set sub0 := decodeScript ((signStep P C S sd).ret.headD []) with hsub0
    set o20 := signStep P C sub0
      { (signStep P C S sd).sigdata with redeem_script := sub0 } with ho20
    set cpl0 := (o20.ok && ! decide (o20.whichType = TxoutType.scripthash)) &&
      verifyScript C.checker (pushAll (o20.ret ++ [encodeScript sub0])) S with hcpl0
    have hcan : ∀ z : CScript, produceSignature P C S (withSC sd z false) =
        (cpl0, withSC o20.sigdata (pushAll (o20.ret ++ [encodeScript sub0])) cpl0) := by
      intro z
      have hbrz : (signStep P C S (withSC sd z false)).ok = true ∧
          (signStep P C S (withSC sd z false)).whichType = TxoutType.scripthash := by
        rw [signStep_frame]
        simpa using hbr
      rw [produce_eq_p2sh P C S (withSC sd z false) rfl hbrz]
      rw [signStep_frame]
      dsimp only
      rw [withSC_set_redeem]
      rw [signStep_frame]
      rfl
    refine ⟨?_, ?_, ?_⟩
    · rw [hz x, hz y, hcan x, hcan y]
    · intro k v hk
      rw [hz x, hcan x]
      show alookup o20.sigdata.signatures k = some v
      have h1 := (signStep_rel P C S sd).1 k v hk
      have h2 := (signStep_rel P C sub0
        { (signStep P C S sd).sigdata with redeem_script := sub0 }).1 k v h1
      rw [← ho20] at h2
      exact h2
    · refine ⟨o20.ret ++ [encodeScript sub0], ?_⟩
      rw [hz x, hcan x]
      rfl
  · have hcan : ∀ z : CScript, produceSignature P C S (withSC sd z false) =
        ((signStep P C S sd).ok &&
            verifyScript C.checker (pushAll (signStep P C S sd).ret) S,
          withSC (signStep P C S sd).sigdata (pushAll (signStep P C S sd).ret)
            ((signStep P C S sd).ok &&
              verifyScript C.checker (pushAll (signStep P C S sd).ret) S)) := by
      intro z
      have hbrz : ¬((signStep P C S (withSC sd z false)).ok = true ∧
          (signStep P C S (withSC sd z false)).whichType = TxoutType.scripthash) := by
        rw [signStep_frame]
        simpa using hbr
      rw [produce_eq_of_not_p2sh P C S (withSC sd z false) rfl hbrz]
      rw [signStep_frame]
      rfl
    refine ⟨?_, ?_, ?_⟩
    · rw [hz x, hz y, hcan x, hcan y]
    · intro k v hk
      rw [hz x, hcan x]
      show alookup (signStep P C S sd).sigdata.signatures k = some v
      exact (signStep_rel P C S sd).1 k v hk
    · refine ⟨(signStep P C S sd).ret, ?_⟩
      rw [hz x, hcan x]
      rfl

theorem claim_C10_scriptSig_overwrite_witness :
    produceSignature DUMMY_SIGNING_PROVIDER creatorRejectAll CScript.nullData
        { SignatureData.init with scriptSig := CScript.pushOnly [[9]] } =
      produceSignature DUMMY_SIGNING_PROVIDER creatorRejectAll CScript.nullData
        { SignatureData.init with scriptSig := emptyScript } ∧
    (∀ k v, alookup SignatureData.init.signatures k = some v →
      alookup (produceSignature DUMMY_SIGNING_PROVIDER creatorRejectAll
          CScript.nullData
          { SignatureData.init with
              scriptSig := CScript.pushOnly [[9]] }).2.signatures k = some v) ∧
    ∃ items, (produceSignature DUMMY_SIGNING_PROVIDER creatorRejectAll
        CScript.nullData
        { SignatureData.init with
            scriptSig := CScript.pushOnly [[9]] }).2.scriptSig = pushAll items :=
  claim_C10_scriptSig_overwrite DUMMY_SIGNING_PROVIDER creatorRejectAll
    CScript.nullData SignatureData.init (CScript.pushOnly [[9]]) emptyScript rfl

/-- C8: PUBKEYHASH with a missing pubkey: if the CreateSig helper succeeds
for the key id while the provider's pubkey lookup misses, SignStep still
returns true and pushes an empty bytestring in place of the serialized
pubkey (the empty serialization of an uninitialized CPubKey); the assembled
scriptSig then fails verification under the transaction-bound checker, and
ProduceSignature reports complete = false. -/
theorem claim_C8_pkh_missing_pubkey (ctx : TxCtx) (P : SigningProvider)
    (sd : SignatureData) (kid : Nat) (sig : Valtype)
    (hc : sd.complete = false)
    (hmiss : P.getPubKey? kid = none)
    (hsig : (createSigH (realCreator ctx) sd P kid (CScript.pkhScript kid)).1 =
      some sig) :
    signStep P (realCreator ctx) (CScript.pkhScript kid) sd =
      ⟨true, [sig, []], .pubkeyhash,
        (createSigH (realCreator ctx) sd P kid (CScript.pkhScript kid)).2⟩ ∧
    verifyScript (realCheckSig ctx) (pushAll [sig, []])
      (CScript.pkhScript kid) = false ∧
    (produceSignature P (realCreator ctx) (CScript.pkhScript kid) sd).1 = false ∧
    (produceSignature P (realCreator ctx) (CScript.pkhScript kid) sd).2.complete =
      false := by
  have hstep : signStep P (realCreator ctx) (CScript.pkhScript kid) sd =
      ⟨true, [sig, []], .pubkeyhash,
        (createSigH (realCreator ctx) sd P kid (CScript.pkhScript kid)).2⟩ := by
    simp only [signStep, solver]
    cases hcs : createSigH (realCreator ctx) sd P kid (CScript.pkhScript kid) with
    | mk r sd1 =>
      rw [hcs] at hsig
      simp only at hsig
      subst hsig
      simp [hmiss]
  have hver : verifyScript (realCheckSig ctx) (pushAll [sig, []])
      (CScript.pkhScript kid) = false := by
    by_cases hk : keyIdOf [] = kid
    · simp [verifyScript, verifyScriptExtract, verifyBaseExtract, solver,
        pushAll, hk, realCheckSig, skOf?]
    · simp [verifyScript, verifyScriptExtract, verifyBaseExtract, solver,
        pushAll, hk]
  have hbr : ¬((signStep P (realCreator ctx) (CScript.pkhScript kid) sd).ok = true ∧
      (signStep P (realCreator ctx) (CScript.pkhScript kid) sd).whichType =
        TxoutType.scripthash) := by
    rw [hstep]
    intro h
    exact absurd h.2 (by simp)
  have hprod := produce_eq_of_not_p2sh P (realCreator ctx)
    (CScript.pkhScript kid) sd hc hbr
  rw [hstep] at hprod
  simp only at hprod
  refine ⟨hstep, hver, ?_, ?_⟩
  · rw [hprod]
    show (true && verifyScript (realCreator ctx).checker (pushAll [sig, []])
      (CScript.pkhScript kid)) = false
    rw [Bool.true_and]
    exact hver
  · rw [hprod]
    show (true && verifyScript (realCreator ctx).checker (pushAll [sig, []])
      (CScript.pkhScript kid)) = false
    rw [Bool.true_and]
    exact hver

theorem claim_C8_pkh_missing_pubkey_witness :
    signStep ⟨fun k => if k = 5 then some 9 else none, fun _ => none, fun _ => none⟩
        (realCreator ⟨0, 65⟩) (CScript.pkhScript 5) SignatureData.init =
      ⟨true, [[48, 9, 929296, 65], []], .pubkeyhash,
        (createSigH (realCreator ⟨0, 65⟩) SignatureData.init
          ⟨fun k => if k = 5 then some 9 else none, fun _ => none, fun _ => none⟩
          5 (CScript.pkhScript 5)).2⟩ ∧
    verifyScript (realCheckSig ⟨0, 65⟩) (pushAll [[48, 9, 929296, 65], []])
      (CScript.pkhScript 5) = false ∧
    (produceSignature
        ⟨fun k => if k = 5 then some 9 else none, fun _ => none, fun _ => none⟩
        (realCreator ⟨0, 65⟩) (CScript.pkhScript 5) SignatureData.init).1 = false ∧
    (produceSignature
        ⟨fun k => if k = 5 then some 9 else none, fun _ => none, fun _ => none⟩
        (realCreator ⟨0, 65⟩) (CScript.pkhScript 5) SignatureData.init).2.complete =
      false :=
  claim_C8_pkh_missing_pubkey ⟨0, 65⟩
    ⟨fun k => if k = 5 then some 9 else none, fun _ => none, fun _ => none⟩
    SignatureData.init 5 [48, 9, 929296, 65] rfl rfl (by decide)

/-! Support for the sign-then-extract round trip. -/

theorem signStep_whichType (P : SigningProvider) (C : Creator) (S : CScript)
    (sd : SignatureData) :
    (signStep P C S sd).whichType = (solver S).tag := by
  cases hS : solver S with
  | nonstandard => simp [signStep, hS, SolverResult.tag]
  | nulldata => simp [signStep, hS, SolverResult.tag]
  | pubkey pk =>
    simp only [signStep, hS]
    cases hcs : createSigH C sd P (keyIdOf pk) S with
    | mk r sd1 => cases r <;> simp [SolverResult.tag]
  | pubkeyhash kid =>
    simp only [signStep, hS]
    cases hcs : createSigH C sd P kid S with
    | mk r sd1 => cases r <;> simp [SolverResult.tag]
  | scripthash sid =>
    simp only [signStep, hS]
    cases hg : getCScript P sd sid <;> simp [SolverResult.tag]
  | multisig m pks => simp [signStep, hS, SolverResult.tag]

theorem isSome_aemplace_iff {α β : Type} [DecidableEq α]
    (m : List (α × β)) (k0 k : α) (v : β) :
    (alookup (aemplace m k0 v) k).isSome = true ↔
      ((alookup m k).isSome = true ∨ k = k0) := by
  by_cases hk : k = k0
  · subst hk
    simp [isSome_alookup_aemplace]
  · rw [alookup_aemplace_ne _ _ _ _ hk]
    simp [hk]

theorem emplacePairs_isSome (pairs : List (Valtype × Valtype)) :
    ∀ (m : List (Nat × SigPair)) (k : Nat),
      (alookup (emplacePairs m pairs) k).isSome = true ↔
        ((alookup m k).isSome = true ∨
          k ∈ pairs.map (fun pr => keyIdOf pr.1)) := by
  induction pairs with
  | nil => intro m k; simp [emplacePairs]
  | cons pr rest ih =>
    intro m k
    have hstep : emplacePairs m (pr :: rest) =
        emplacePairs (aemplace m (keyIdOf pr.1) pr) rest := by
      simp [emplacePairs]
    rw [hstep, ih, isSome_aemplace_iff]
    simp [or_assoc]

theorem msigMatchExtract_spec (ch : CheckerFn) (sc : CScript) :
    ∀ (pks sigs : List Valtype) (pairs : List (Valtype × Valtype)),
      msigMatchExtract ch sc sigs pks = (true, pairs) →
      List.Sublist (pairs.map Prod.fst) pks ∧
      pairs.length = sigs.length ∧
      ∀ pr ∈ pairs, ch pr.2 pr.1 sc = true := by
  intro pks
  induction pks with
  | nil =>
    intro sigs pairs h
    cases sigs with
    | nil =>
      simp only [msigMatchExtract] at h
      injection h with h1 h2
      subst h2
      simp
    | cons s ss =>
      simp only [msigMatchExtract] at h
      exact absurd h (by simp)
  | cons p pp ih =>
    intro sigs pairs h
    cases sigs with
    | nil =>
      simp only [msigMatchExtract] at h
      injection h with h1 h2
      subst h2
      simp
    | cons s ss =>
      simp only [msigMatchExtract] at h
      by_cases hch : ch s p sc = true
      · rw [if_pos hch] at h
        injection h with h1 h2
        have hr : msigMatchExtract ch sc ss pp =
            (true, (msigMatchExtract ch sc ss pp).2) := by
          have : msigMatchExtract ch sc ss pp =
              ((msigMatchExtract ch sc ss pp).1,
                (msigMatchExtract ch sc ss pp).2) := rfl
          rw [this, h1]
        obtain ⟨hs1, hs2, hs3⟩ := ih ss (msigMatchExtract ch sc ss pp).2 hr
        subst h2
        refine ⟨?_, ?_, ?_⟩
        · simp only [List.map_cons]
          exact List.Sublist.cons₂ p hs1
        · simp [hs2]
        · intro q hq
          rcases List.mem_cons.mp hq with hq1 | hq2
          · subst hq1
            exact hch
          · exact hs3 q hq2
      · rw [if_neg hch] at h
        obtain ⟨hs1, hs2, hs3⟩ := ih (s :: ss) pairs h
        exact ⟨List.Sublist.cons p hs1, hs2, hs3⟩

theorem verifyBase_spec (ch : CheckerFn) (stack : List Valtype) (T : CScript)
    (pairs : List (Valtype × Valtype))
    (h : verifyBaseExtract ch stack T = (true, pairs)) :
    (match solver T with
     | SolverResult.pubkey pk =>
        ∃ s, stack = [s] ∧ ch s pk T = true ∧ pairs = [(pk, s)]
     | SolverResult.pubkeyhash kid =>
        ∃ s pkb, stack = [s, pkb] ∧ keyIdOf pkb = kid ∧ ch s pkb T = true ∧
          pairs = [(pkb, s)]
     | SolverResult.multisig m pks =>
        List.Sublist (pairs.map Prod.fst) pks ∧ pairs.length = m ∧
          ∀ pr ∈ pairs, ch pr.2 pr.1 T = true
     | SolverResult.scripthash sid => pairs = []
     | SolverResult.nulldata => False
     | SolverResult.nonstandard => False) := by
  cases hT : solver T with
  | nonstandard =>
    simp only [verifyBaseExtract, hT] at h
    exact absurd h (by simp)
  | nulldata =>
    simp only [verifyBaseExtract, hT] at h
    exact absurd h (by simp)
  | pubkey pk =>
    simp only [verifyBaseExtract, hT] at h
    match stack, h with
    | [s], h =>
      replace h : (if ch s pk T = true then
          ((true, [(pk, s)]) : Bool × List (Valtype × Valtype))
        else (false, [])) = (true, pairs) := h
      show ∃ s1, [s] = [s1] ∧ ch s1 pk T = true ∧ pairs = [(pk, s1)]
      by_cases hch : ch s pk T = true
      · rw [if_pos hch] at h
        injection h with h1 h2
        exact ⟨s, rfl, hch, h2.symm⟩
      · rw [if_neg hch] at h
        exact absurd h (by simp)
    | [], h => exact absurd h (by simp)
    | a :: b :: rest, h => exact absurd h (by simp)
  | pubkeyhash kid =>
    simp only [verifyBaseExtract, hT] at h
    match stack, h with
    | [s, pkb], h =>
      replace h : (if keyIdOf pkb = kid then
          (if ch s pkb T = true then
            ((true, [(pkb, s)]) : Bool × List (Valtype × Valtype))
          else (false, []))
        else (false, [])) = (true, pairs) := h
      show ∃ s1 pkb1, [s, pkb] = [s1, pkb1] ∧ keyIdOf pkb1 = kid ∧
        ch s1 pkb1 T = true ∧ pairs = [(pkb1, s1)]
      by_cases hkid : keyIdOf pkb = kid
      · rw [if_pos hkid] at h
        by_cases hch : ch s pkb T = true
        · rw [if_pos hch] at h
          injection h with h1 h2
          exact ⟨s, pkb, rfl, hkid, hch, h2.symm⟩
        · rw [if_neg hch] at h
          exact absurd h (by simp)
      · rw [if_neg hkid] at h
        exact absurd h (by simp)
    | [], h => exact absurd h (by simp)
    | [a], h => exact absurd h (by simp)
    | a :: b :: c :: rest, h => exact absurd h (by simp)
  | scripthash sid =>
    simp only [verifyBaseExtract, hT] at h
    match stack, h with
    | [x], h =>
      replace h : ((decide (encodeList x = sid), []) :
        Bool × List (Valtype × Valtype)) = (true, pairs) := h
      show pairs = []
      injection h with h1 h2
      exact h2.symm
    | [], h => exact absurd h (by simp)
    | a :: b :: rest, h => exact absurd h (by simp)
  | multisig m pks =>
    simp only [verifyBaseExtract, hT] at h
    match stack, h with
    | dummy :: sigs, h =>
      replace h : (if dummy = [] ∧ sigs.length = m then
          msigMatchExtract ch T sigs pks
        else (false, [])) = (true, pairs) := h
      show List.Sublist (pairs.map Prod.fst) pks ∧ pairs.length = m ∧
        ∀ pr ∈ pairs, ch pr.2 pr.1 T = true
      by_cases hg : dummy = [] ∧ sigs.length = m
      · rw [if_pos hg] at h
        obtain ⟨hs1, hs2, hs3⟩ := msigMatchExtract_spec ch T pks sigs pairs h
        exact ⟨hs1, by rw [hs2, hg.2], hs3⟩
      · rw [if_neg hg] at h
        exact absurd h (by simp)
    | [], h => exact absurd h (by simp)

theorem dft_complete (ch : CheckerFn) (ssig S : CScript)
    (pairs : List (Valtype × Valtype))
    (hvr : verifyScriptExtract ch ssig S = (true, pairs)) :
    dataFromTransaction ch ssig S =
      { SignatureData.init with
          scriptSig := ssig
          signatures := emplacePairs [] pairs
          complete := true } := by
  simp only [dataFromTransaction, hvr]
  rfl

theorem tail_pubkey (C : Creator) (stack : List Valtype) (T : CScript)
    (pk : Valtype) (pairs : List (Valtype × Valtype))
    (hT : solver T = SolverResult.pubkey pk)
    (hbase : verifyBaseExtract C.checker stack T = (true, pairs)) :
    ∀ k, ((alookup (emplacePairs [] pairs) k).isSome = true ↔ k = keyIdOf pk) := by
  have hspec := verifyBase_spec C.checker stack T pairs hbase
  rw [hT] at hspec
  obtain ⟨s, hret, hch, hpairs⟩ := hspec
  subst hpairs
  intro k
  rw [emplacePairs_isSome]
  simp [alookup]

theorem tail_pkh (C : Creator) (stack : List Valtype) (T : CScript)
    (kid : Nat) (pairs : List (Valtype × Valtype))
    (hT : solver T = SolverResult.pubkeyhash kid)
    (hbase : verifyBaseExtract C.checker stack T = (true, pairs)) :
    ∀ k, ((alookup (emplacePairs [] pairs) k).isSome = true ↔ k = kid) := by
  have hspec := verifyBase_spec C.checker stack T pairs hbase
  rw [hT] at hspec
  obtain ⟨s, pkb, hret, hkid, hch, hpairs⟩ := hspec
  subst hpairs
  intro k
  rw [emplacePairs_isSome]
  simp [alookup, hkid]

theorem tail_msig (C : Creator) (stack : List Valtype) (T : CScript)
    (m : Nat) (pks : List Valtype) (pairs : List (Valtype × Valtype))
    (hT : solver T = SolverResult.multisig m pks)
    (hbase : verifyBaseExtract C.checker stack T = (true, pairs)) :
    ∃ pairs2 : List (Valtype × Valtype),
      List.Sublist (pairs2.map Prod.fst) pks ∧
      pairs2.length = m ∧
      (∀ pr ∈ pairs2, C.checker pr.2 pr.1 T = true) ∧
      (∀ k, ((alookup (emplacePairs [] pairs) k).isSome = true ↔
        k ∈ pairs2.map (fun pr => keyIdOf pr.1))) := by
  have hspec := verifyBase_spec C.checker stack T pairs hbase
  rw [hT] at hspec
  obtain ⟨hs1, hs2, hs3⟩ := hspec
  refine ⟨pairs, hs1, hs2, hs3, ?_⟩
  intro k
  rw [emplacePairs_isSome]
  simp [alookup]

/-- C3: round-trip sign-then-extract: whenever ProduceSignature completes a
previously incomplete SignatureData for a locking script, running
DataFromTransaction on the resulting scriptSig against the same output, with
the same transaction-bound checker the creator exposes, yields complete =
true and a signatures map holding exactly the signers the effective template
requires: the single key for PUBKEY, the script's key id for PUBKEYHASH,
and, for an m-of-n MULTISIG, exactly m keys drawn in order from the pubkey
list, each backed by a checker-accepted signature from the scriptSig; for a
SCRIPTHASH output the effective template is the stored redeem script's. -/
theorem claim_C3_roundtrip (P : SigningProvider) (C : Creator) (S : CScript)
    (sd sd' : SignatureData) (hc : sd.complete = false)
    (hps : produceSignature P C S sd = (true, sd')) :
    (dataFromTransaction C.checker sd'.scriptSig S).complete = true ∧
    (match solver (match solver S with
        | SolverResult.scripthash _ => sd'.redeem_script
        | _ => S) with
     | SolverResult.pubkey pk => ∀ k,
        ((alookup (dataFromTransaction C.checker sd'.scriptSig S).signatures
          k).isSome = true ↔ k = keyIdOf pk)
     | SolverResult.pubkeyhash kid => ∀ k,
        ((alookup (dataFromTransaction C.checker sd'.scriptSig S).signatures
          k).isSome = true ↔ k = kid)
     | SolverResult.multisig m pks =>
        ∃ pairs2 : List (Valtype × Valtype),
          List.Sublist (pairs2.map Prod.fst) pks ∧
          pairs2.length = m ∧
          (∀ pr ∈ pairs2, C.checker pr.2 pr.1
            (match solver S with
             | SolverResult.scripthash _ => sd'.redeem_script
             | _ => S) = true) ∧
          (∀ k, ((alookup (dataFromTransaction C.checker sd'.scriptSig
            S).signatures k).isSome = true ↔
              k ∈ pairs2.map (fun pr => keyIdOf pr.1)))
     | _ => False) := by
  by_cases hbr : (signStep P C S sd).ok = true ∧
      (signStep P C S sd).whichType = TxoutType.scripthash
  · -- SCRIPTHASH output
    obtain ⟨sid, hS⟩ := whichType_scripthash P C S sd hbr.2
    obtain ⟨w, hg, hstep⟩ := signStep_scripthash_some P C S sd sid hS hbr.1
    have hmain := produce_eq_p2sh P C S sd hc hbr
    rw [hstep] at hmain
    simp only [List.headD_cons, decodeScript_encodeScript] at hmain
    rw [hmain] at hps
    injection hps with h1 h2
    rw [Bool.and_eq_true] at h1
    obtain ⟨h1a, hvf⟩ := h1
    rw [Bool.and_eq_true] at h1a
    obtain ⟨ho2ok, hwt'⟩ := h1a
    have hwt : (signStep P C w { sd with redeem_script := w }).whichType ≠
        TxoutType.scripthash := by
      intro hcon
      rw [hcon] at hwt'
      simp at hwt'
    have hssig : sd'.scriptSig =
        pushAll ((signStep P C w { sd with redeem_script := w }).ret ++
          [encodeScript w]) := by
      rw [← h2]
      rfl
    have hredeem : sd'.redeem_script = w := by
      rw [← h2]
      exact (signStep_rel P C w { sd with redeem_script := w }).2.2.2
    have htag2 : (signStep P C w { sd with redeem_script := w }).whichType =
        (solver w).tag := signStep_whichType P C w { sd with redeem_script := w }
    have hnotsh2 : ∀ sid2, solver w ≠ SolverResult.scripthash sid2 := by
      intro sid2 hcon
      exact hwt (by rw [htag2, hcon]; rfl)
    cases hvrE : verifyScriptExtract C.checker
        (pushAll ((signStep P C w { sd with redeem_script := w }).ret ++
          [encodeScript w])) S with
    | mk b pairs =>
      have hb : b = true := by
        have hvs : verifyScript C.checker
            (pushAll ((signStep P C w { sd with redeem_script := w }).ret ++
              [encodeScript w])) S = b := by
          rw [verifyScript, hvrE]
        rw [← hvs]
        exact hvf
      subst hb
      have hhash : encodeList (encodeScript w) = sid := by
        by_contra hno
        have hfalse : verifyScriptExtract C.checker
            (pushAll ((signStep P C w { sd with redeem_script := w }).ret ++
              [encodeScript w])) S = (false, []) := by
          simp [verifyScriptExtract, pushAll, hS, List.getLast?_concat, hno]
        rw [hfalse] at hvrE
        exact absurd hvrE (by simp)
      have hbase : verifyBaseExtract C.checker
          ((signStep P C w { sd with redeem_script := w }).ret) w =
          (true, pairs) := by
        rw [← hvrE]
        simp only [verifyScriptExtract, pushAll, hS, List.getLast?_concat]
        rw [if_pos hhash, List.dropLast_concat, decodeScript_encodeScript]
      have hd := dft_complete C.checker
        (pushAll ((signStep P C w { sd with redeem_script := w }).ret ++
          [encodeScript w])) S pairs hvrE
      refine ⟨by rw [hssig, hd], ?_⟩
      simp only [hS, hredeem]
      cases hT : solver w with
      | pubkey pk =>
        rw [hssig, hd]
        exact tail_pubkey C _ w pk pairs hT hbase
      | pubkeyhash kid =>
        rw [hssig, hd]
        exact tail_pkh C _ w kid pairs hT hbase
      | multisig m pks =>
        rw [hssig, hd]
        exact tail_msig C _ w m pks pairs hT hbase
      | scripthash sid2 => exact absurd hT (hnotsh2 sid2)
      | nulldata =>
        have hspec := verifyBase_spec C.checker _ w pairs hbase
        rw [hT] at hspec
        exact hspec
      | nonstandard =>
        have hspec := verifyBase_spec C.checker _ w pairs hbase
        rw [hT] at hspec
        exact hspec
  · -- non-SCRIPTHASH output
    have hmain := produce_eq_of_not_p2sh P C S sd hc hbr
    rw [hmain] at hps
    injection hps with h1 h2
    rw [Bool.and_eq_true] at h1
    obtain ⟨hok, hvf⟩ := h1
    have hssig : sd'.scriptSig = pushAll (signStep P C S sd).ret := by
      rw [← h2]
      rfl
    have htag : (signStep P C S sd).whichType = (solver S).tag :=
      signStep_whichType P C S sd
    have hnotsh : ∀ sid, solver S ≠ SolverResult.scripthash sid := by
      intro sid hcon
      exact hbr ⟨hok, by rw [htag, hcon]; rfl⟩
    cases hvrE : verifyScriptExtract C.checker (pushAll (signStep P C S sd).ret) S with
    | mk b pairs =>
      have hb : b = true := by
        have hvs : verifyScript C.checker (pushAll (signStep P C S sd).ret) S = b := by
          rw [verifyScript, hvrE]
        rw [← hvs]
        exact hvf
      subst hb
      have hd := dft_complete C.checker (pushAll (signStep P C S sd).ret) S
        pairs hvrE
      refine ⟨by rw [hssig, hd], ?_⟩
      cases hT : solver S with
      | pubkey pk =>
        have hbase : verifyBaseExtract C.checker ((signStep P C S sd).ret) S =
            (true, pairs) := by
          rw [← hvrE]
          simp [verifyScriptExtract, pushAll, hT]
        simp only [hT]
        rw [hssig, hd]
        exact tail_pubkey C _ S pk pairs hT hbase
      | pubkeyhash kid =>
        have hbase : verifyBaseExtract C.checker ((signStep P C S sd).ret) S =
            (true, pairs) := by
          rw [← hvrE]
          simp [verifyScriptExtract, pushAll, hT]
        simp only [hT]
        rw [hssig, hd]
        exact tail_pkh C _ S kid pairs hT hbase
      | multisig m pks =>
        have hbase : verifyBaseExtract C.checker ((signStep P C S sd).ret) S =
            (true, pairs) := by
          rw [← hvrE]
          simp [verifyScriptExtract, pushAll, hT]
        simp only [hT]
        rw [hssig, hd]
        exact tail_msig C _ S m pks pairs hT hbase
      | scripthash sid => exact absurd hT (hnotsh sid)
      | nulldata =>
        have hbase : verifyBaseExtract C.checker ((signStep P C S sd).ret) S =
            (true, pairs) := by
          rw [← hvrE]
          simp [verifyScriptExtract, pushAll, hT]
        have hspec := verifyBase_spec C.checker _ S pairs hbase
        rw [hT] at hspec
        simp only [hT]
        exact hspec
      | nonstandard =>
        have hbase : verifyBaseExtract C.checker ((signStep P C S sd).ret) S =
            (true, pairs) := by
          rw [← hvrE]
          simp [verifyScriptExtract, pushAll, hT]
        have hspec := verifyBase_spec C.checker _ S pairs hbase
        rw [hT] at hspec
        simp only [hT]
        exact hspec

theorem claim_C3_roundtrip_witness :
    (dataFromTransaction (realCreator ctx0).checker
      (produceSignature providerC3 (realCreator ctx0) (CScript.pkScript [2, 7])
        SignatureData.init).2.scriptSig (CScript.pkScript [2, 7])).complete =
      true ∧
    (match solver (match solver (CScript.pkScript [2, 7]) with
        | SolverResult.scripthash _ =>
          (produceSignature providerC3 (realCreator ctx0)
            (CScript.pkScript [2, 7]) SignatureData.init).2.redeem_script
        | _ => CScript.pkScript [2, 7]) with
     | SolverResult.pubkey pk => ∀ k,
        ((alookup (dataFromTransaction (realCreator ctx0).checker
          (produceSignature providerC3 (realCreator ctx0)
            (CScript.pkScript [2, 7]) SignatureData.init).2.scriptSig
          (CScript.pkScript [2, 7])).signatures k).isSome = true ↔
            k = keyIdOf pk)
     | SolverResult.pubkeyhash kid => ∀ k,
        ((alookup (dataFromTransaction (realCreator ctx0).checker
          (produceSignature providerC3 (realCreator ctx0)
            (CScript.pkScript [2, 7]) SignatureData.init).2.scriptSig
          (CScript.pkScript [2, 7])).signatures k).isSome = true ↔ k = kid)
     | SolverResult.multisig m pks =>
        ∃ pairs2 : List (Valtype × Valtype),
          List.Sublist (pairs2.map Prod.fst) pks ∧
          pairs2.length = m ∧
          (∀ pr ∈ pairs2, (realCreator ctx0).checker pr.2 pr.1
            (match solver (CScript.pkScript [2, 7]) with
             | SolverResult.scripthash _ =>
               (produceSignature providerC3 (realCreator ctx0)
                 (CScript.pkScript [2, 7]) SignatureData.init).2.redeem_script
             | _ => CScript.pkScript [2, 7]) = true) ∧
          (∀ k, ((alookup (dataFromTransaction (realCreator ctx0).checker
            (produceSignature providerC3 (realCreator ctx0)
              (CScript.pkScript [2, 7]) SignatureData.init).2.scriptSig
            (CScript.pkScript [2, 7])).signatures k).isSome = true ↔
              k ∈ pairs2.map (fun pr => keyIdOf pr.1)))
     | _ => False) :=
  claim_C3_roundtrip providerC3 (realCreator ctx0) (CScript.pkScript [2, 7])
    SignatureData.init
    (produceSignature providerC3 (realCreator ctx0) (CScript.pkScript [2, 7])
      SignatureData.init).2 rfl (by decide)
